import Mathlib

/-
Verification of the process/thread control subsystem of the rCore teaching
kernel (files `os/src/syscall/sync.rs`, `os/src/syscall/process.rs`,
`os/src/task/task.rs`).

Shallow embedding conventions:
- Rust `usize` values are `Nat` with wrapping arithmetic made explicit via
  `% 2^64` (`uadd`, `usub`); `isize` return values are `Int`.
- Fallible operations (vector indexing out of bounds, `Option::unwrap` on
  `None`, failed `assert_eq!`) are modelled by `Option`: a `none` result
  models a kernel panic.
- The per-process state `ProcessControlBlockInner` is modelled by `PInner`
  with exactly the fields the embedded syscalls read or write; the `tasks`
  vector is only ever read through `tasks.len()`, so it is modelled by its
  length.
- A mutex/semaphore/condvar slot list (`Vec<Option<Arc<...>>>`) is modelled
  by `List Bool`: `true` for an occupied slot, `false` for the empty marker.
-/

namespace RCore

/-- Width of the machine word: `usize` on the 64-bit RISC-V target. -/
def W : Nat := 2 ^ 64

/-- Wrapping `usize` addition. -/
def uadd (a b : Nat) : Nat := (a + b) % W

/-- Wrapping `usize` subtraction (for `b ≤ W`). -/
def usub (a b : Nat) : Nat := (a + (W - b)) % W

/-- Rust `v[i] = a` on a `Vec`: panics (`none`) when `i` is out of bounds. -/
def setN? (l : List Nat) (i : Nat) (a : Nat) : Option (List Nat) :=
  if i < l.length then some (l.set i a) else none

/-- `v[i] = a` on a `Vec<bool>`. -/
def setB? (l : List Bool) (i : Nat) (a : Bool) : Option (List Bool) :=
  if i < l.length then some (l.set i a) else none

/-- Rust `m[i][j]` read on a `Vec<Vec<usize>>`: panics (`none`) out of bounds. -/
def get2? (m : List (List Nat)) (i j : Nat) : Option Nat :=
  m[i]?.bind (fun r => r[j]?)

/-- Rust `m[i][j] = a`: panics (`none`) when either index is out of bounds. -/
def set2? (m : List (List Nat)) (i j : Nat) (a : Nat) : Option (List (List Nat)) :=
  m[i]?.bind (fun r => (setN? r j a).map (fun r2 => m.set i r2))

/-- Rust `list[id].as_ref().unwrap()` on a slot list: panics (`none`) when the
index is out of bounds or the slot holds the empty marker. -/
def slotGet (l : List Bool) (i : Nat) : Option Unit :=
  l[i]?.bind (fun b => if b then some () else none)

/-- The fields of `ProcessControlBlockInner` used by the embedded syscalls. -/
structure PInner where
  deadlock_detect : Bool
  tasks : Nat
  mutex_list : List Bool
  mutex_available : List Nat
  mutex_allocation : List (List Nat)
  mutex_need : List (List Nat)
  semaphore_list : List Bool
  semaphore_available : List Nat
  semaphore_allocation : List (List Nat)
  semaphore_need : List (List Nat)
  condvar_list : List Bool
deriving DecidableEq, Repr

/-- `for i in 0..rows { if !finish[i] { is_safe = false; break; } }` of
`sys_mutex_lock`: the check whether every scanned entry of `finish` is set.
`k` counts the remaining iterations (invoked with `k = rows`, `i = 0`).
Panics (`none`) when `rows` exceeds `finish.len()`. -/
def allFinishCheck (finish : List Bool) : Nat → Nat → Option Bool
  | 0, _ => some true
  | k + 1, i =>
    finish[i]?.bind (fun f =>
      if f then allFinishCheck finish k (i + 1) else some false)

/-- The inner `for i in 0..mutex_need.len()` loop of the `sys_mutex_lock`
safety check, transcribed verbatim: it compares `mutex_need[tid][i]` with
`work[i]` (conflating the thread-row index with the resource-column index),
adds `mutex_allocation[tid][i]` into `work[i]` and sets `finish[i]` on
success, and breaks with `is_safe = false` on the first failure.
`k` counts the remaining iterations (invoked with `k = rows`, `i = 0`).
Returns `(work, finish, is_safe)`. -/
def mutexPassGo (p : PInner) (tid : Nat) :
    Nat → Nat → List Nat → List Bool → Option (List Nat × List Bool × Bool)
  | 0, _, work, finish => some (work, finish, true)
  | k + 1, i, work, finish =>
    (get2? p.mutex_need tid i).bind (fun nv =>
      work[i]?.bind (fun wv =>
        if nv ≤ wv then
          (get2? p.mutex_allocation tid i).bind (fun av =>
            (setN? work i (uadd wv av)).bind (fun work2 =>
              (setB? finish i true).bind (fun finish2 =>
                mutexPassGo p tid k (i + 1) work2 finish2)))
        else some (work, finish, false)))

/-- The outer `loop` of the `sys_mutex_lock` safety check.  The Rust loop
always exits within two iterations (a fully completed pass marks every
scanned `finish` entry, so the next top check breaks; an incomplete pass
breaks immediately), so the fuel `rows + 2` provided by the caller is never
exhausted. -/
def mutexLoopGo (p : PInner) (tid : Nat) :
    Nat → List Nat → List Bool → Option (List Bool)
  | 0, _, _ => none
  | fuel + 1, work, finish =>
    (allFinishCheck finish p.mutex_need.length 0).bind (fun allF =>
      if allF then some finish
      else
        (mutexPassGo p tid p.mutex_need.length 0 work finish).bind
          (fun r =>
            if r.2.2 then mutexLoopGo p tid fuel r.1 r.2.1
            else some r.2.1))

/-- Outcome of the part of a blocking acquisition syscall that runs before
the call blocks on the underlying primitive. -/
inductive LockPhase where
  | reject (ret : Int) (p : PInner)
  | proceed (p : PInner)
deriving DecidableEq, Repr

/-- `sys_mutex_lock` up to (and excluding) the blocking `mutex.lock()` call:
when deadlock detection is on, increment `mutex_need[tid][mutex_id]`, run the
safety-check loop, and return `-0xDEAD` (without any rollback) if some
`finish` entry is left false; otherwise clone the mutex out of its slot
(panicking on an unknown id) and proceed to block. -/
def mutex_lock_request (p : PInner) (tid mutex_id : Nat) : Option LockPhase :=
  if p.deadlock_detect then
    (get2? p.mutex_need tid mutex_id).bind (fun old =>
      (set2? p.mutex_need tid mutex_id (uadd old 1)).bind (fun need1 =>
        let p1 : PInner := { p with mutex_need := need1 }
        let finish0 := List.replicate p1.tasks false
        (mutexLoopGo p1 tid (p1.mutex_need.length + 2) p1.mutex_available finish0).bind
          (fun finish =>
            if finish.all (fun b => b) then
              (slotGet p1.mutex_list mutex_id).bind (fun _ =>
                some (LockPhase.proceed p1))
            else some (LockPhase.reject (-0xDEAD) p1))))
  else
    (slotGet p.mutex_list mutex_id).bind (fun _ => some (LockPhase.proceed p))

/-- The bookkeeping `sys_mutex_lock` performs after `mutex.lock()` returns:
`mutex_available[id] -= 1; mutex_need[tid][id] -= 1;
mutex_allocation[tid][id] += 1`, then `return 0`. -/
def mutex_lock_grant (p : PInner) (tid mutex_id : Nat) : Option (Int × PInner) :=
  p.mutex_available[mutex_id]?.bind (fun av =>
    (setN? p.mutex_available mutex_id (usub av 1)).bind (fun avail1 =>
      (get2? p.mutex_need tid mutex_id).bind (fun nv =>
        (set2? p.mutex_need tid mutex_id (usub nv 1)).bind (fun need1 =>
          (get2? p.mutex_allocation tid mutex_id).bind (fun lv =>
            (set2? p.mutex_allocation tid mutex_id (uadd lv 1)).bind (fun alloc1 =>
              some (0, { p with
                mutex_available := avail1
                mutex_need := need1
                mutex_allocation := alloc1 })))))))

/-- `sys_mutex_unlock`: `mutex_available[id] += 1;
mutex_allocation[tid][id] -= 1`, clone the mutex out of its slot (panicking
on an unknown id), unlock it, `return 0`. -/
def sys_mutex_unlock (p : PInner) (tid mutex_id : Nat) : Option (Int × PInner) :=
  p.mutex_available[mutex_id]?.bind (fun av =>
    (setN? p.mutex_available mutex_id (uadd av 1)).bind (fun avail1 =>
      (get2? p.mutex_allocation tid mutex_id).bind (fun lv =>
        (set2? p.mutex_allocation tid mutex_id (usub lv 1)).bind (fun alloc1 =>
          (slotGet p.mutex_list mutex_id).bind (fun _ =>
            some (0, { p with
              mutex_available := avail1
              mutex_allocation := alloc1 }))))))

/-- The `for j in 0..work.len()` comparison loop of the `sys_semaphore_down`
safety check: whether `semaphore_need[i][j] <= work[j]` for every column.
`k` counts the remaining iterations (invoked with `k = work.len()`, `j = 0`). -/
def semRowLE (needm : List (List Nat)) (i : Nat) (work : List Nat) :
    Nat → Nat → Option Bool
  | 0, _ => some true
  | k + 1, j =>
    (get2? needm i j).bind (fun nv =>
      work[j]?.bind (fun wv =>
        if nv > wv then some false else semRowLE needm i work k (j + 1)))

/-- The `for j in 0..work.len() { work[j] += semaphore_allocation[i][j] }`
loop of the `sys_semaphore_down` safety check.  `k` counts the remaining
iterations (invoked with `k = work.len()`, `j = 0`). -/
def semAddRow (allocm : List (List Nat)) (i : Nat) :
    Nat → Nat → List Nat → Option (List Nat)
  | 0, _, work => some work
  | k + 1, j, work =>
    work[j]?.bind (fun wv =>
      (get2? allocm i j).bind (fun av =>
        (setN? work j (uadd wv av)).bind (fun work2 =>
          semAddRow allocm i k (j + 1) work2)))

/-- One pass of the `sys_semaphore_down` safety check over
`for i in 0..semaphore_need.len()`: skip finished threads, and for an
unfinished thread whose whole need row fits under `work`, set `is_safe =
false`, mark `finish[i]` and add its allocation row into `work`.
`k` counts the remaining iterations (invoked with `k = rows`, `i = 0`).
Returns `(work, finish, is_safe)`. -/
def semPassGo (p : PInner) :
    Nat → Nat → List Nat → List Bool → Bool → Option (List Nat × List Bool × Bool)
  | 0, _, work, finish, is_safe => some (work, finish, is_safe)
  | k + 1, i, work, finish, is_safe =>
    finish[i]?.bind (fun f =>
      if f then semPassGo p k (i + 1) work finish is_safe
      else
        (semRowLE p.semaphore_need i work work.length 0).bind (fun ok =>
          if ok then
            (setB? finish i true).bind (fun finish2 =>
              (semAddRow p.semaphore_allocation i work.length 0 work).bind
                (fun work2 => semPassGo p k (i + 1) work2 finish2 false))
          else semPassGo p k (i + 1) work finish is_safe))

/-- The outer `loop` of the `sys_semaphore_down` safety check: repeat passes
until a pass marks no new thread.  Every repeating pass marks at least one
new `finish` entry, so the fuel `rows + 1` provided by the caller is never
exhausted. -/
def semLoopGo (p : PInner) : Nat → List Nat → List Bool → Option (List Bool)
  | 0, _, _ => none
  | fuel + 1, work, finish =>
    (semPassGo p p.semaphore_need.length 0 work finish true).bind (fun r =>
      if r.2.2 then some r.2.1
      else semLoopGo p fuel r.1 r.2.1)

/-- `sys_semaphore_down` up to (and excluding) the blocking `sem.down()`
call: clone the semaphore out of its slot (panicking on an unknown id); when
deadlock detection is on, increment `semaphore_need[tid][sem_id]`, run the
safety-check loop, and return `-0xDEAD` (without any rollback) if some
`finish` entry is left false; otherwise proceed to block. -/
def semaphore_down_request (p : PInner) (tid sem_id : Nat) : Option LockPhase :=
  (slotGet p.semaphore_list sem_id).bind (fun _ =>
    if p.deadlock_detect then
      (get2? p.semaphore_need tid sem_id).bind (fun old =>
        (set2? p.semaphore_need tid sem_id (uadd old 1)).bind (fun need1 =>
          let p1 : PInner := { p with semaphore_need := need1 }
          let finish0 := List.replicate p1.tasks false
          (semLoopGo p1 (p1.semaphore_need.length + 1) p1.semaphore_available finish0).bind
            (fun finish =>
              if finish.all (fun b => b) then some (LockPhase.proceed p1)
              else some (LockPhase.reject (-0xDEAD) p1))))
    else some (LockPhase.proceed p))

/-- The bookkeeping `sys_semaphore_down` performs after `sem.down()` returns:
`semaphore_available[id] -= 1; semaphore_need[tid][id] -= 1;
semaphore_allocation[tid][id] += 1`, then `return 0`. -/
def semaphore_down_grant (p : PInner) (tid sem_id : Nat) : Option (Int × PInner) :=
  p.semaphore_available[sem_id]?.bind (fun av =>
    (setN? p.semaphore_available sem_id (usub av 1)).bind (fun avail1 =>
      (get2? p.semaphore_need tid sem_id).bind (fun nv =>
        (set2? p.semaphore_need tid sem_id (usub nv 1)).bind (fun need1 =>
          (get2? p.semaphore_allocation tid sem_id).bind (fun lv =>
            (set2? p.semaphore_allocation tid sem_id (uadd lv 1)).bind (fun alloc1 =>
              some (0, { p with
                semaphore_available := avail1
                semaphore_need := need1
                semaphore_allocation := alloc1 })))))))

/-- `sys_semaphore_up`: clone the semaphore out of its slot (panicking on an
unknown id), `semaphore_available[id] += 1;
semaphore_allocation[tid][id] -= 1`, call `sem.up()`, `return 0`. -/
def sys_semaphore_up (p : PInner) (tid sem_id : Nat) : Option (Int × PInner) :=
  (slotGet p.semaphore_list sem_id).bind (fun _ =>
    p.semaphore_available[sem_id]?.bind (fun av =>
      (setN? p.semaphore_available sem_id (uadd av 1)).bind (fun avail1 =>
        (get2? p.semaphore_allocation tid sem_id).bind (fun lv =>
          (set2? p.semaphore_allocation tid sem_id (usub lv 1)).bind (fun alloc1 =>
            some (0, { p with
              semaphore_available := avail1
              semaphore_allocation := alloc1 }))))))

/-- `sys_condvar_signal`: clone the condvar out of its slot (panicking on an
unknown id), signal it, `return 0`. -/
def sys_condvar_signal (p : PInner) (condvar_id : Nat) : Option Int :=
  (slotGet p.condvar_list condvar_id).bind (fun _ => some 0)

/-- `sys_condvar_wait`: clone the condvar and the mutex out of their slots
(panicking on an unknown id), wait, `return 0`. -/
def sys_condvar_wait (p : PInner) (condvar_id mutex_id : Nat) : Option Int :=
  (slotGet p.condvar_list condvar_id).bind (fun _ =>
    (slotGet p.mutex_list mutex_id).bind (fun _ => some 0))

/-- The row comparison of the specification's Banker's check: whether
`need[u][c] ≤ work[c]` holds for every resource column `c`. -/
def bankersRowLE (row work : List Nat) : Bool :=
  (List.range work.length).all (fun c => row.getD c 0 ≤ work.getD c 0)

/-- Adding an Allocation row into Work, columnwise. -/
def bankersAdd (work row : List Nat) : List Nat :=
  (List.range work.length).map (fun c => work.getD c 0 + row.getD c 0)

/-- One scan of the specification's Banker's check over threads `u < n`: any
thread not yet marked Finish whose entire Need row fits under Work is marked
and its Allocation row is added into Work; the Bool reports whether some
thread was newly marked during the pass. -/
def bankersPass (need alloc : List (List Nat)) :
    Nat → Nat → List Nat → List Bool → Bool → (List Nat × List Bool × Bool)
  | 0, _, work, finish, changed => (work, finish, changed)
  | k + 1, u, work, finish, changed =>
    if finish.getD u false then bankersPass need alloc k (u + 1) work finish changed
    else if bankersRowLE (need.getD u []) work then
      bankersPass need alloc k (u + 1) (bankersAdd work (alloc.getD u []))
        (finish.set u true) true
    else bankersPass need alloc k (u + 1) work finish changed

/-- Repeat passes until no further thread can be marked in a pass.  At most
`n` passes can mark a thread, so fuel `n + 1` reaches the fixpoint. -/
def bankersLoop (need alloc : List (List Nat)) (n : Nat) :
    Nat → List Nat → List Bool → List Bool
  | 0, _, finish => finish
  | fuel + 1, work, finish =>
    let r := bankersPass need alloc n 0 work finish false
    if r.2.2 then bankersLoop need alloc n fuel r.1 r.2.1 else r.2.1

/-- The Banker's safety check exactly as claim C1 (and spec §4.5) states it:
`Work` is initialized to a copy of `Available` and `Finish[u] = false` for
every live thread `u`; repeatedly, any unfinished thread whose entire Need
row satisfies `Need[u][c] ≤ Work[c]` for every resource column is marked and
its Allocation row is added into `Work`, until no further thread can be
marked in a pass; the request may proceed iff every thread ends marked. -/
def bankersSafe (need alloc : List (List Nat)) (avail : List Nat)
    (threads : Nat) : Bool :=
  (bankersLoop need alloc threads (threads + 1) avail
    (List.replicate threads false)).all (fun b => b)

/-- A process state with three live threads and three mutexes: thread 1
holds mutex 1 and has a pending need for mutex 2; thread 2 holds mutex 2 and
has a pending need for mutex 1 (a circular wait); thread 0 holds nothing.
Reachable with detection enabled: both pending needs are left behind by
rejected `sys_mutex_lock` calls, which never roll back the tentative Need
increment. -/
def c1state : PInner := {
  deadlock_detect := true
  tasks := 3
  mutex_list := [true, true, true]
  mutex_available := [1, 0, 0]
  mutex_allocation := [[0, 0, 0], [0, 1, 0], [0, 0, 1]]
  mutex_need := [[0, 0, 0], [0, 0, 1], [0, 1, 0]]
  semaphore_list := []
  semaphore_available := []
  semaphore_allocation := []
  semaphore_need := []
  condvar_list := [] }

/-- `c1state` after thread 0's tentative `Need[0][0] += 1` for mutex 0. -/
def c1state' : PInner :=
  { c1state with mutex_need := [[1, 0, 0], [0, 0, 1], [0, 1, 0]] }

/-- A single-threaded process that holds its only mutex: re-requesting it
with detection on is rejected by the safety check. -/
def c2state : PInner := {
  deadlock_detect := true
  tasks := 1
  mutex_list := [true]
  mutex_available := [0]
  mutex_allocation := [[1]]
  mutex_need := [[0]]
  semaphore_list := []
  semaphore_available := []
  semaphore_allocation := []
  semaphore_need := []
  condvar_list := [] }

/-- `c2state` after the rejected request: the Need increment persists. -/
def c2state' : PInner := { c2state with mutex_need := [[1]] }

/-- A process with no synchronization objects at all and detection off:
every resource id is unknown. -/
def c3state : PInner := {
  deadlock_detect := false
  tasks := 1
  mutex_list := []
  mutex_available := []
  mutex_allocation := []
  mutex_need := []
  semaphore_list := []
  semaphore_available := []
  semaphore_allocation := []
  semaphore_need := []
  condvar_list := [] }

/-- `list.iter().enumerate().find(|(_, item)| item.is_none()).map(|(id, _)| id)`:
index of the first freed slot, if any. -/
def firstEmpty : List Bool → Option Nat
  | [] => none
  | b :: rest => if b then (firstEmpty rest).map (fun i => i + 1) else some 0

/-- `for i in rows.iter_mut() { i[id] = 0; }`: zero column `id` of every
row, panicking (`none`) when a row is too short. -/
def zeroCol : List (List Nat) → Nat → Option (List (List Nat))
  | [], _ => some []
  | r :: rest, id =>
    (setN? r id 0).bind (fun r2 =>
      (zeroCol rest id).map (fun rest2 => r2 :: rest2))

/-- Result of creating a mutex or semaphore: the allotted slot id and the
updated slot list, Available vector and Allocation/Need matrices. -/
structure CreateRes where
  id : Nat
  slots : List Bool
  avail : List Nat
  alloc : List (List Nat)
  need : List (List Nat)
deriving DecidableEq, Repr

/-- `if need.is_empty() { alloc.push(vec![0; w]); need.push(vec![0; w]); }`
with `w = list.len()`: the one-row growth both create paths perform before
touching the matrices. -/
def growRows (alloc need : List (List Nat)) (w : Nat) :
    List (List Nat) × List (List Nat) :=
  if need.isEmpty then
    (alloc ++ [List.replicate w 0], need ++ [List.replicate w 0])
  else (alloc, need)

/-- The slot-reuse path of mutex/semaphore creation: store the object in
slot `id`, set `available[id] = c`, grow the matrices by one row when Need
is empty, and zero column `id` of every Allocation and Need row. -/
def createReuse (slots : List Bool) (avail : List Nat)
    (alloc need : List (List Nat)) (c id : Nat) : Option CreateRes :=
  (setB? slots id true).bind (fun slots1 =>
    (setN? avail id c).bind (fun avail1 =>
      (zeroCol (growRows alloc need slots.length).1 id).bind (fun alloc2 =>
        (zeroCol (growRows alloc need slots.length).2 id).bind (fun need2 =>
          some ⟨id, slots1, avail1, alloc2, need2⟩))))

/-- The append path of mutex/semaphore creation: grow the matrices by one
row when Need is empty (with the pre-push width `list.len()`), push the new
slot, push `c` onto Available, and push a zero column onto every row; the
returned id is `list.len() - 1` after the push. -/
def createAppend (slots : List Bool) (avail : List Nat)
    (alloc need : List (List Nat)) (c : Nat) : CreateRes :=
  ⟨slots.length, slots ++ [true], avail ++ [c],
    (growRows alloc need slots.length).1.map (fun r => r ++ [0]),
    (growRows alloc need slots.length).2.map (fun r => r ++ [0])⟩

/-- The shared body of `sys_mutex_create` (`c = 1`) and
`sys_semaphore_create` (`c = res_count`): reuse the first freed slot when
one exists, else append a fresh slot. -/
def createClass (slots : List Bool) (avail : List Nat)
    (alloc need : List (List Nat)) (c : Nat) : Option CreateRes :=
  match firstEmpty slots with
  | some id => createReuse slots avail alloc need c id
  | none => some (createAppend slots avail alloc need c)

/-- `sys_mutex_create`: allocate a slot with capacity 1; returns the id. -/
def sys_mutex_create (p : PInner) : Option (Int × PInner) :=
  (createClass p.mutex_list p.mutex_available p.mutex_allocation p.mutex_need 1).bind
    (fun r => some ((r.id : Int), { p with
      mutex_list := r.slots
      mutex_available := r.avail
      mutex_allocation := r.alloc
      mutex_need := r.need }))

/-- `sys_semaphore_create(res_count)`: allocate a slot with capacity
`res_count`; returns the id. -/
def sys_semaphore_create (p : PInner) (res_count : Nat) : Option (Int × PInner) :=
  (createClass p.semaphore_list p.semaphore_available p.semaphore_allocation
      p.semaphore_need res_count).bind
    (fun r => some ((r.id : Int), { p with
      semaphore_list := r.slots
      semaphore_available := r.avail
      semaphore_allocation := r.alloc
      semaphore_need := r.need }))

/-- A resource-class operation of claim C8: creation, a blocking
acquisition that the detector accepts and that is then granted, or a
release. -/
inductive SyncOp where
  | mCreate
  | mLock (tid id : Nat)
  | mUnlock (tid id : Nat)
  | sCreate (c : Nat)
  | sDown (tid id : Nat)
  | sUp (tid id : Nat)
deriving DecidableEq, Repr

/-- The process state paired with the ghost capacity vectors of the two
resource classes (capacity 1 for each mutex column, the initial count for
each semaphore column). -/
structure GState where
  p : PInner
  capM : List Nat
  capS : List Nat
deriving DecidableEq, Repr

/-- Ghost capacity update at a create: overwrite the reused column's
capacity, or append the fresh column's capacity. -/
def capUpd (cap : List Nat) (id c : Nat) : List Nat :=
  if id < cap.length then cap.set id c else cap ++ [c]

/-- One accepted operation: creation via the embedded create syscalls; an
acquisition via the embedded request phase (rejections and panics are not
accepted) followed by the embedded grant bookkeeping; a release via the
embedded release syscalls. -/
def stepOp (g : GState) : SyncOp → Option GState
  | SyncOp.mCreate =>
    (createClass g.p.mutex_list g.p.mutex_available g.p.mutex_allocation
        g.p.mutex_need 1).bind (fun cr =>
      some ⟨{ g.p with
          mutex_list := cr.slots
          mutex_available := cr.avail
          mutex_allocation := cr.alloc
          mutex_need := cr.need },
        capUpd g.capM cr.id 1, g.capS⟩)
  | SyncOp.mLock tid id =>
    (mutex_lock_request g.p tid id).bind (fun ph =>
      match ph with
      | LockPhase.proceed p1 =>
        (mutex_lock_grant p1 tid id).bind (fun r2 =>
          some ⟨r2.2, g.capM, g.capS⟩)
      | LockPhase.reject _ _ => none)
  | SyncOp.mUnlock tid id =>
    (sys_mutex_unlock g.p tid id).bind (fun r => some ⟨r.2, g.capM, g.capS⟩)
  | SyncOp.sCreate c =>
    (createClass g.p.semaphore_list g.p.semaphore_available
        g.p.semaphore_allocation g.p.semaphore_need c).bind (fun cr =>
      some ⟨{ g.p with
          semaphore_list := cr.slots
          semaphore_available := cr.avail
          semaphore_allocation := cr.alloc
          semaphore_need := cr.need },
        g.capM, capUpd g.capS cr.id c⟩)
  | SyncOp.sDown tid id =>
    (semaphore_down_request g.p tid id).bind (fun ph =>
      match ph with
      | LockPhase.proceed p1 =>
        (semaphore_down_grant p1 tid id).bind (fun r2 =>
          some ⟨r2.2, g.capM, g.capS⟩)
      | LockPhase.reject _ _ => none)
  | SyncOp.sUp tid id =>
    (sys_semaphore_up g.p tid id).bind (fun r => some ⟨r.2, g.capM, g.capS⟩)

/-- Run a sequence of accepted operations. -/
def execOps (g : GState) : List SyncOp → Option GState
  | [] => some g
  | op :: rest => (stepOp g op).bind (fun g2 => execOps g2 rest)

/-- A freshly started process with `k` live threads, detection enabled and
no synchronization objects, paired with empty ghost capacity vectors. -/
def initG (k : Nat) : GState := {
  p := {
    deadlock_detect := true
    tasks := k
    mutex_list := []
    mutex_available := []
    mutex_allocation := []
    mutex_need := []
    semaphore_list := []
    semaphore_available := []
    semaphore_allocation := []
    semaphore_need := []
    condvar_list := [] }
  capM := []
  capS := [] }

/-- Column sum `Σ_t Allocation[t][r]` in `ZMod W` (machine-word residues). -/
def colSumZ (m : List (List Nat)) (r : Nat) : ZMod W :=
  (m.map (fun row => ((row.getD r 0 : Nat) : ZMod W))).sum

/-- Column sum `Σ_t Allocation[t][r]` as an exact natural number. -/
def colSumN (m : List (List Nat)) (r : Nat) : Nat :=
  (m.map (fun row => row.getD r 0)).sum

/-- Well-formedness and the capacity invariant of one resource class:
aligned lengths, full-width rows, Need empty only when Allocation is, and
`Available[r] + Σ_t Allocation[t][r] = capacity(r)` modulo `2^64` for every
column. -/
def classWF (slots : List Bool) (avail : List Nat)
    (alloc need : List (List Nat)) (cap : List Nat) : Prop :=
  slots.length = avail.length ∧
  cap.length = avail.length ∧
  (∀ row ∈ alloc, row.length = avail.length) ∧
  (need = [] → alloc = []) ∧
  (∀ r, r < cap.length →
    ((avail.getD r 0 : Nat) : ZMod W) + colSumZ alloc r
      = ((cap.getD r 0 : Nat) : ZMod W))

/-- The C8 invariant: both resource classes are well formed against their
ghost capacities. -/
def gInv (g : GState) : Prop :=
  classWF g.p.mutex_list g.p.mutex_available g.p.mutex_allocation
    g.p.mutex_need g.capM ∧
  classWF g.p.semaphore_list g.p.semaphore_available g.p.semaphore_allocation
    g.p.semaphore_need g.capS

/-- The state reached from `initG 1` by
`[mCreate, mLock 0 0, mUnlock 0 0]`. -/
def c8wstate : GState := {
  p := {
    deadlock_detect := true
    tasks := 1
    mutex_list := [true]
    mutex_available := [1]
    mutex_allocation := [[0]]
    mutex_need := [[0]]
    semaphore_list := []
    semaphore_available := []
    semaphore_allocation := []
    semaphore_need := []
    condvar_list := [] }
  capM := [1]
  capS := [] }

/-- The state reached from `initG 1` by `[mCreate, mUnlock 0 0]`: releasing
a mutex the thread does not hold wraps its Allocation entry to `2^64 - 1`. -/
def c8cxstate : GState := {
  p := {
    deadlock_detect := true
    tasks := 1
    mutex_list := [true]
    mutex_available := [2]
    mutex_allocation := [[18446744073709551615]]
    mutex_need := [[0]]
    semaphore_list := []
    semaphore_available := []
    semaphore_allocation := []
    semaphore_need := []
    condvar_list := [] }
  capM := [1]
  capS := [] }

/-- A process holding one mutex slot and one semaphore slot whose releasing
thread's Allocation entries are already zero. -/
def c7state : PInner := {
  deadlock_detect := false
  tasks := 1
  mutex_list := [true]
  mutex_available := [1]
  mutex_allocation := [[0]]
  mutex_need := [[0]]
  semaphore_list := [true]
  semaphore_available := [2]
  semaphore_allocation := [[0]]
  semaphore_need := [[0]]
  condvar_list := [] }

/-- A process whose slot lists each hold one freed slot (the empty marker
`None`) and with detection off: id 0 names no live object in any class. -/
def c3state2 : PInner := {
  deadlock_detect := false
  tasks := 1
  mutex_list := [false]
  mutex_available := [1]
  mutex_allocation := [[0]]
  mutex_need := [[0]]
  semaphore_list := [false]
  semaphore_available := [1]
  semaphore_allocation := [[0]]
  semaphore_need := [[0]]
  condvar_list := [false] }

/-- A child entry of the process tree as `sys_waitpid` sees it: the child's
pid, whether its inner state is Zombie, its recorded exit code, and the
`Arc` strong count observed after removal from the children list. -/
structure Child where
  pid : Nat
  zombie : Bool
  exit_code : Int
  strong_count : Nat
deriving DecidableEq, Repr

/-- Rust `pid as usize` on an `isize`: the two's-complement
reinterpretation. -/
def usizeOfInt (i : Int) : Nat := (i % ((W : Nat) : Int)).toNat

/-- `pid == -1 || pid as usize == p.getpid()`. -/
def childMatches (pid : Int) (c : Child) : Bool :=
  pid == -1 || usizeOfInt pid == c.pid

/-- `children.iter().enumerate().find(|(_, p)| p.is_zombie() && (pid == -1
|| pid as usize == p.getpid()))`: the first matching Zombie child together
with its index (`s` is the index of the list head). -/
def findZW (pid : Int) : List Child → Nat → Option (Nat × Child)
  | [], _ => none
  | c :: rest, s =>
    if c.zombie && childMatches pid c then some (s, c)
    else findZW pid rest (s + 1)

/-- `sys_waitpid`: return −1 when no child matches `pid` by id (ignoring
state); otherwise look for the first matching Zombie child; if none, return
−2; if found, remove it from the children list, check `Arc::strong_count ==
1` (the `assert_eq!`, whose failure is a panic, modelled `none`), and return
its pid together with the new children list and the exit code written
through the translated output pointer (modelled as the third component). -/
def sys_waitpid (children : List Child) (pid : Int) :
    Option (Int × List Child × Option Int) :=
  if children.any (fun c => childMatches pid c) then
    match findZW pid children 0 with
    | some (idx, c) =>
      if c.strong_count = 1 then
        some ((c.pid : Int), children.eraseIdx idx, some c.exit_code)
      else none
    | none => some (-2, children, none)
  else some (-1, children, none)

/-- Page size of the SV39 target. -/
def PAGE_SIZE : Nat := 4096

/-- Modelled from the spec: `VirtAddr::aligned` (the `mm` module is absent
from src/) — §3 requires a region start to be page-aligned, i.e. the page
offset is zero. -/
def alignedVA (a : Nat) : Bool := a % PAGE_SIZE == 0

/-- A mapped virtual-memory region `[vstart, vend)` with its permission
mask. -/
structure Region where
  vstart : Nat
  vend : Nat
  perm : Nat
deriving DecidableEq, Repr

/-- The region collection of one address space. -/
abbrev MemState := List Region

/-- Modelled from the spec: `mmap_current` (absent from src/) — §4.2/§4.6:
a zero-length request is a no-op success returning 0; a request overlapping
an existing mapped region is a request-level error (−1); otherwise the
region is registered and 0 is returned. -/
def mmap_current (ms : MemState) (s e port : Nat) : Int × MemState :=
  if e ≤ s then (0, ms)
  else if ms.any (fun r => decide (r.vstart < e ∧ s < r.vend)) then (-1, ms)
  else (0, ms ++ [⟨s, e, port⟩])

/-- Modelled from the spec: `munmap_current` (absent from src/) — §4.2: a
zero-length request is a no-op success; the call fails (−1) unless the
range exactly matches one or more currently mapped regions (no region may
straddle the range boundary and the contained regions must cover the whole
range); on success the matching regions are removed and 0 is returned. -/
def munmap_current (ms : MemState) (s e : Nat) : Int × MemState :=
  if e ≤ s then (0, ms)
  else
    let straddles := ms.any (fun r =>
      decide (r.vstart < e ∧ s < r.vend) && !(decide (s ≤ r.vstart ∧ r.vend ≤ e)))
    let contained := ms.filter (fun r => decide (s ≤ r.vstart ∧ r.vend ≤ e))
    if straddles = false ∧ (contained.map (fun r => r.vend - r.vstart)).sum = e - s then
      (0, ms.filter (fun r => !(decide (s ≤ r.vstart ∧ r.vend ≤ e))))
    else (-1, ms)

/-- `sys_mmap`: return −1 when `start` is not page-aligned, when the
permission word has a bit outside the low 3 bits (`_port & !0x7 != 0`), or
when the low 3 bits are all zero (`_port & 0x7 == 0`); else delegate to
`mmap_current` with `end = start + len` (wrapping `usize` addition). -/
def sys_mmap (ms : MemState) (s len port : Nat) : Int × MemState :=
  if !(alignedVA s) then (-1, ms)
  else if (Nat.land port (W - 8) != 0) || (Nat.land port 7 == 0) then (-1, ms)
  else mmap_current ms s (uadd s len) port

/-- `sys_munmap`: return −1 when `start` is not page-aligned; else delegate
to `munmap_current` with `end = start + len`. -/
def sys_munmap (ms : MemState) (s len : Nat) : Int × MemState :=
  if !(alignedVA s) then (-1, ms)
  else munmap_current ms s (uadd s len)

/-- The general-purpose register file of a trap context (`x[0..32]`);
`x[10]` is the syscall-return slot. -/
structure TrapContext where
  x : Fin 32 → Nat

/-- The fields of a process control block used by `sys_fork` and
`sys_set_priority`. -/
structure PCB where
  pid : Nat
  priority : Nat
  trap_cx : TrapContext

/-- Modelled from the spec: `TaskControlBlock::fork` (absent from src/) —
§4.3: creates a new process that is a deep copy of the caller's state with
a fresh pid; in particular the child's initial trap context is a copy of
the parent's. -/
def forkChild (parent : PCB) (freshPid : Nat) : PCB :=
  { parent with pid := freshPid }

/-- `sys_fork`: fork the current task, read the new pid, set `x[10]` of the
child's trap context to 0 (the child's syscall return value), hand the
child to the scheduler via `add_task` (modelled by appending to the run
list), and return the new pid to the parent. -/
def sys_fork (parent : PCB) (freshPid : Nat) (sched : List PCB) :
    Int × PCB × List PCB :=
  let new_task := forkChild parent freshPid
  let new_pid := new_task.pid
  let new_task2 : PCB :=
    { new_task with trap_cx := ⟨Function.update new_task.trap_cx.x 10 0⟩ }
  ((new_pid : Int), new_task2, sched ++ [new_task2])

/-- `sys_set_priority`: when `_prio >= 2`, store `_prio as usize` in the
process's priority field and return `_prio` itself; otherwise return −1. -/
def sys_set_priority (p : PCB) (prio : Int) : Int × PCB :=
  if 2 ≤ prio then (prio, { p with priority := prio.toNat }) else (-1, p)

/-- A concrete process control block. -/
def pcb0 : PCB := ⟨1, 0, ⟨fun _ => 0⟩⟩

-- ===================================================================
-- Supporting lemmas
-- ===================================================================

theorem uadd_one_ne (a : Nat) : uadd a 1 ≠ a := by
  unfold uadd W
  intro h
  have hlt : (a + 1) % 2 ^ 64 < 2 ^ 64 := Nat.mod_lt _ (by positivity)
  have ha : a < 2 ^ 64 := h ▸ hlt
  rcases Nat.lt_or_ge (a + 1) (2 ^ 64) with hc | hc
  · rw [Nat.mod_eq_of_lt hc] at h; omega
  · have he : a + 1 = 2 ^ 64 := by omega
    rw [he, Nat.mod_self] at h
    omega

theorem get2?_of_set2? {m m2 : List (List Nat)} {i j a : Nat}
    (h : set2? m i j a = some m2) : get2? m2 i j = some a := by
  unfold set2? at h
  cases hr : m[i]? with
  | none => rw [hr] at h; simp at h
  | some row =>
    rw [hr] at h
    simp only [Option.some_bind] at h
    unfold setN? at h
    by_cases hj : j < row.length
    · simp only [hj, if_pos, Option.map_some'] at h
      have hm2 : m2 = m.set i (row.set j a) := by
        cases h; rfl
      subst hm2
      have hi : i < m.length := (List.getElem?_eq_some.mp hr).1
      unfold get2?
      rw [List.getElem?_set_self hi]
      simp only [Option.some_bind]
      exact List.getElem?_set_self (by simpa using hj)
    · simp [hj] at h

theorem slotGet_eq_none {l : List Bool} {i : Nat} (h : l[i]? ≠ some true) :
    slotGet l i = none := by
  unfold slotGet
  cases hb : l[i]? with
  | none => rfl
  | some b =>
    cases b with
    | true => exact absurd hb h
    | false => rfl

theorem bind_none_of {α β : Type} (x : Option α) (f : α → Option β)
    (h : ∀ a, f a = none) : x.bind f = none := by
  cases x <;> simp [h]

theorem slotGet_eq_some {l : List Bool} {i : Nat} (h : l[i]? = some true) :
    slotGet l i = some () := by
  unfold slotGet
  rw [h]
  rfl

theorem set2?_some_of_get2? {m : List (List Nat)} {i j v : Nat}
    (h : get2? m i j = some v) (a : Nat) : ∃ m2, set2? m i j a = some m2 := by
  unfold get2? at h
  cases hr : m[i]? with
  | none => rw [hr] at h; simp at h
  | some row =>
    rw [hr] at h
    simp only [Option.some_bind] at h
    have hj : j < row.length := (List.getElem?_eq_some.mp h).1
    refine ⟨m.set i (row.set j a), ?_⟩
    unfold set2? setN?
    rw [hr]
    simp [hj]

theorem uadd_cast (a b : Nat) :
    ((uadd a b : Nat) : ZMod W) = (a : ZMod W) + (b : ZMod W) := by
  unfold uadd
  rw [ZMod.natCast_mod, Nat.cast_add]

theorem usub_one_cast (a : Nat) :
    ((usub a 1 : Nat) : ZMod W) = (a : ZMod W) - 1 := by
  unfold usub
  rw [ZMod.natCast_mod, Nat.cast_add, Nat.cast_sub (by unfold W; norm_num)]
  rw [ZMod.natCast_self]
  ring

theorem getD_eq_of_getElem? {l : List Nat} {i v : Nat} (h : l[i]? = some v) :
    l.getD i 0 = v := by
  simp [List.getD, h]

theorem getD_set_self {l : List Nat} {i : Nat} (a : Nat) (h : i < l.length) :
    (l.set i a).getD i 0 = a := by
  simp [List.getD, List.getElem?_set_self h]

theorem getD_set_ne {l : List Nat} {i j : Nat} (a : Nat) (h : i ≠ j) :
    (l.set i a).getD j 0 = l.getD j 0 := by
  simp [List.getD, List.getElem?_set_ne h]

theorem getD_append_zero (row : List Nat) (r : Nat) :
    (row ++ [0]).getD r 0 = row.getD r 0 := by
  rcases Nat.lt_or_ge r row.length with h | h
  · simp [List.getD, List.getElem?_append_left h]
  · rcases Nat.eq_or_lt_of_le h with he | hl
    · subst he
      have h1 : (row ++ [0])[row.length]? = some 0 := by
        rw [List.getElem?_append_right (le_refl _)]
        simp
      have h2 : row[row.length]? = none := List.getElem?_eq_none (le_refl _)
      simp [List.getD, h1, h2]
    · have h1 : (row ++ [0])[r]? = none :=
        List.getElem?_eq_none (by simp; omega)
      have h2 : row[r]? = none := List.getElem?_eq_none h
      simp [List.getD, h1, h2]

theorem getD_replicate_zero (k r : Nat) :
    (List.replicate k (0 : Nat)).getD r 0 = 0 := by
  rcases Nat.lt_or_ge r k with h | h
  · simp [List.getD, List.getElem?_replicate, h]
  · have : (List.replicate k (0 : Nat))[r]? = none :=
      List.getElem?_eq_none (by simpa using h)
    simp [List.getD, this]

theorem colSumZ_nil (r : Nat) : colSumZ [] r = 0 := rfl

theorem colSumZ_cons (row : List Nat) (rest : List (List Nat)) (r : Nat) :
    colSumZ (row :: rest) r
      = ((row.getD r 0 : Nat) : ZMod W) + colSumZ rest r := by
  simp [colSumZ]

theorem colSumZ_listset (r : Nat) :
    ∀ (m : List (List Nat)) (t : Nat) (row' : List Nat), t < m.length →
    colSumZ (m.set t row') r
      = colSumZ m r - (((m.getD t []).getD r 0 : Nat) : ZMod W)
        + ((row'.getD r 0 : Nat) : ZMod W)
  | [], t, _, ht => absurd ht (by simp)
  | a :: rest, 0, row', _ => by
    simp only [List.set, colSumZ_cons, List.getD]
    simp
    ring
  | a :: rest, t + 1, row', ht => by
    have ih := colSumZ_listset r rest t row' (by simpa using ht)
    simp only [List.set, colSumZ_cons]
    rw [ih]
    have : (a :: rest).getD (t + 1) [] = rest.getD t [] := by
      simp [List.getD]
    rw [this]
    ring

theorem colSumZ_append_row (m : List (List Nat)) (row : List Nat) (r : Nat) :
    colSumZ (m ++ [row]) r = colSumZ m r + ((row.getD r 0 : Nat) : ZMod W) := by
  simp [colSumZ]

theorem colSumZ_map_push (r : Nat) : ∀ m : List (List Nat),
    colSumZ (m.map (fun row => row ++ [0])) r = colSumZ m r
  | [] => rfl
  | a :: rest => by
    simp only [List.map, colSumZ_cons, getD_append_zero]
    rw [colSumZ_map_push r rest]

theorem colSumZ_map_zero_self (id : Nat) : ∀ m : List (List Nat),
    colSumZ (m.map (fun row => row.set id 0)) id = 0
  | [] => rfl
  | a :: rest => by
    simp only [List.map, colSumZ_cons]
    rw [colSumZ_map_zero_self id rest]
    rcases Nat.lt_or_ge id a.length with h | h
    · rw [getD_set_self 0 h]; simp
    · rw [List.set_eq_of_length_le (by simpa using h)]
      have : a[id]? = none := List.getElem?_eq_none h
      simp [List.getD, this]

theorem colSumZ_map_zero_ne {id r : Nat} (hne : id ≠ r) : ∀ m : List (List Nat),
    colSumZ (m.map (fun row => row.set id 0)) r = colSumZ m r
  | [] => rfl
  | a :: rest => by
    simp only [List.map, colSumZ_cons, getD_set_ne 0 hne]
    rw [colSumZ_map_zero_ne hne rest]

theorem set2?_decomp {m m2 : List (List Nat)} {i j a : Nat}
    (h : set2? m i j a = some m2) :
    ∃ row, m[i]? = some row ∧ j < row.length ∧ m2 = m.set i (row.set j a) := by
  unfold set2? at h
  cases hr : m[i]? with
  | none => rw [hr] at h; simp at h
  | some row =>
    rw [hr] at h
    simp only [Option.some_bind] at h
    unfold setN? at h
    by_cases hj : j < row.length
    · rw [if_pos hj] at h
      simp only [Option.map_some'] at h
      exact ⟨row, rfl, hj, (Option.some.inj h).symm⟩
    · rw [if_neg hj] at h; simp at h

theorem zeroCol_eq : ∀ {m m2 : List (List Nat)} {id : Nat},
    zeroCol m id = some m2 →
    m2 = m.map (fun row => row.set id 0) ∧ ∀ row ∈ m, id < row.length := by
  intro m
  induction m with
  | nil => intro m2 id h; cases h; exact ⟨rfl, by simp⟩
  | cons a rest ih =>
    intro m2 id h
    unfold zeroCol at h
    cases ha : setN? a id 0 with
    | none => rw [ha] at h; simp at h
    | some a2 =>
      rw [ha] at h
      simp only [Option.some_bind] at h
      cases hrest : zeroCol rest id with
      | none => rw [hrest] at h; simp at h
      | some rest2 =>
        rw [hrest] at h
        simp only [Option.map_some'] at h
        obtain ⟨hr1, hr2⟩ := ih hrest
        unfold setN? at ha
        by_cases hid : id < a.length
        · rw [if_pos hid] at ha
          refine ⟨?_, ?_⟩
          · rw [← Option.some.inj h]
            simp [Option.some.inj ha, hr1]
          · intro row hrow
            rcases List.mem_cons.mp hrow with he | hm
            · rw [he]; exact hid
            · exact hr2 row hm
        · rw [if_neg hid] at ha; cases ha

theorem firstEmpty_lt : ∀ {l : List Bool} {i : Nat},
    firstEmpty l = some i → i < l.length := by
  intro l
  induction l with
  | nil => intro i h; cases h
  | cons b rest ih =>
    intro i h
    unfold firstEmpty at h
    by_cases hb : b
    · rw [if_pos hb] at h
      cases hr : firstEmpty rest with
      | none => rw [hr] at h; cases h
      | some i0 =>
        rw [hr] at h
        simp only [Option.map_some'] at h
        rw [← Option.some.inj h]
        simpa using ih hr
    · rw [if_neg hb] at h
      rw [← Option.some.inj h]
      simp

theorem getD_append_left {l : List Nat} {r : Nat} (l2 : List Nat)
    (h : r < l.length) : (l ++ l2).getD r 0 = l.getD r 0 := by
  simp [List.getD, List.getElem?_append_left h]

theorem getD_append_self (l : List Nat) (a : Nat) :
    (l ++ [a]).getD l.length 0 = a := by
  have h1 : (l ++ [a])[l.length]? = some a := by
    rw [List.getElem?_append_right (le_refl _)]
    simp
  simp [List.getD, h1]

theorem colSumZ_map_push_at_end {L : Nat} : ∀ m : List (List Nat),
    (∀ row ∈ m, row.length = L) →
    colSumZ (m.map (fun row => row ++ [0])) L = 0
  | [], _ => rfl
  | a :: rest, h => by
    simp only [List.map, colSumZ_cons]
    rw [colSumZ_map_push_at_end rest (fun row hr => h row (List.mem_cons_of_mem a hr))]
    have ha : a.length = L := h a (List.mem_cons_self a rest)
    rw [← ha, getD_append_self]
    simp

theorem set2?_some_ne_nil {m m2 : List (List Nat)} {i j a : Nat}
    (h : set2? m i j a = some m2) : m2 ≠ [] := by
  obtain ⟨row, hrow, _, hdef⟩ := set2?_decomp h
  have hi : i < m.length := (List.getElem?_eq_some.mp hrow).1
  subst hdef
  apply List.ne_nil_of_length_pos
  rw [List.length_set]
  omega

theorem setN?_decomp {l l2 : List Nat} {i a : Nat} (h : setN? l i a = some l2) :
    i < l.length ∧ l2 = l.set i a := by
  unfold setN? at h
  by_cases hi : i < l.length
  · rw [if_pos hi] at h
    exact ⟨hi, (Option.some.inj h).symm⟩
  · rw [if_neg hi] at h; cases h

theorem classWF_exchange
    {slots : List Bool} {avail : List Nat} {alloc need' : List (List Nat)}
    {cap : List Nat} {id tid av lv x y : Nat}
    {alloc1 : List (List Nat)} (d1 d2 : ZMod W)
    (h1 : slots.length = avail.length) (h2 : cap.length = avail.length)
    (h3 : ∀ row ∈ alloc, row.length = avail.length)
    (h5 : ∀ r, r < cap.length →
      ((avail.getD r 0 : Nat) : ZMod W) + colSumZ alloc r
        = ((cap.getD r 0 : Nat) : ZMod W))
    (hav : avail[id]? = some av)
    (hgl : get2? alloc tid id = some lv)
    (hx : (x : ZMod W) = (av : ZMod W) + d1)
    (hy : (y : ZMod W) = (lv : ZMod W) + d2)
    (hd : d1 + d2 = 0)
    (hset : set2? alloc tid id y = some alloc1)
    (hne : need' = [] → alloc1 = []) :
    classWF slots (avail.set id x) alloc1 need' cap := by
  obtain ⟨row, hrow, hjlt, hdef⟩ := set2?_decomp hset
  have hid : id < avail.length := (List.getElem?_eq_some.mp hav).1
  have htlt : tid < alloc.length := (List.getElem?_eq_some.mp hrow).1
  have hrowmem : row ∈ alloc := List.getElem?_mem hrow
  have hgetd : alloc.getD tid [] = row := by simp [List.getD, hrow]
  refine ⟨by simpa using h1, by simpa using h2, ?_, hne, ?_⟩
  · intro row2 hrow2
    rw [List.length_set]
    subst hdef
    rcases List.mem_or_eq_of_mem_set hrow2 with hm | he
    · exact h3 row2 hm
    · rw [he, List.length_set]
      exact h3 row hrowmem
  · intro r hr
    by_cases hcase : id = r
    · subst hcase
      rw [getD_set_self x hid]
      subst hdef
      rw [colSumZ_listset id alloc tid _ htlt, hgetd, getD_set_self y hjlt]
      have hrv : row.getD id 0 = lv := by
        unfold get2? at hgl
        rw [hrow] at hgl
        simp only [Option.some_bind] at hgl
        exact getD_eq_of_getElem? hgl
      rw [hrv]
      have h5id := h5 id hr
      have hag : avail.getD id 0 = av := getD_eq_of_getElem? hav
      rw [hag] at h5id
      rw [hx, hy, ← h5id]
      have hrearrange :
          ((av : ZMod W) + d1)
            + (colSumZ alloc id - (lv : ZMod W) + ((lv : ZMod W) + d2))
          = (av : ZMod W) + colSumZ alloc id + (d1 + d2) := by ring
      rw [hrearrange, hd, add_zero]
    · rw [getD_set_ne x hcase]
      subst hdef
      rw [colSumZ_listset r alloc tid _ htlt, hgetd, getD_set_ne y hcase]
      have h5r := h5 r hr
      rw [← h5r]
      ring

theorem sys_mutex_unlock_decomp {p : PInner} {tid id : Nat} {res : Int × PInner}
    (h : sys_mutex_unlock p tid id = some res) :
    ∃ av lv alloc1,
      p.mutex_available[id]? = some av ∧
      get2? p.mutex_allocation tid id = some lv ∧
      set2? p.mutex_allocation tid id (usub lv 1) = some alloc1 ∧
      res = (0, { p with
        mutex_available := p.mutex_available.set id (uadd av 1)
        mutex_allocation := alloc1 }) := by
  unfold sys_mutex_unlock at h
  cases hav : p.mutex_available[id]? with
  | none => rw [hav] at h; simp at h
  | some av =>
    rw [hav] at h
    simp only [Option.some_bind] at h
    cases hs1 : setN? p.mutex_available id (uadd av 1) with
    | none => rw [hs1] at h; simp at h
    | some avail1 =>
      rw [hs1] at h
      simp only [Option.some_bind] at h
      cases hlv : get2? p.mutex_allocation tid id with
      | none => rw [hlv] at h; simp at h
      | some lv =>
        rw [hlv] at h
        simp only [Option.some_bind] at h
        cases hs2 : set2? p.mutex_allocation tid id (usub lv 1) with
        | none => rw [hs2] at h; simp at h
        | some alloc1 =>
          rw [hs2] at h
          simp only [Option.some_bind] at h
          cases hsg : slotGet p.mutex_list id with
          | none => rw [hsg] at h; simp at h
          | some u =>
            rw [hsg] at h
            simp only [Option.some_bind] at h
            obtain ⟨_, hdef⟩ := setN?_decomp hs1
            subst hdef
            exact ⟨av, lv, alloc1, rfl, rfl, hs2, (Option.some.inj h).symm⟩

theorem sys_semaphore_up_decomp {p : PInner} {tid id : Nat} {res : Int × PInner}
    (h : sys_semaphore_up p tid id = some res) :
    ∃ av lv alloc1,
      p.semaphore_available[id]? = some av ∧
      get2? p.semaphore_allocation tid id = some lv ∧
      set2? p.semaphore_allocation tid id (usub lv 1) = some alloc1 ∧
      res = (0, { p with
        semaphore_available := p.semaphore_available.set id (uadd av 1)
        semaphore_allocation := alloc1 }) := by
  unfold sys_semaphore_up at h
  cases hsg : slotGet p.semaphore_list id with
  | none => rw [hsg] at h; simp at h
  | some u =>
    rw [hsg] at h
    simp only [Option.some_bind] at h
    cases hav : p.semaphore_available[id]? with
    | none => rw [hav] at h; simp at h
    | some av =>
      rw [hav] at h
      simp only [Option.some_bind] at h
      cases hs1 : setN? p.semaphore_available id (uadd av 1) with
      | none => rw [hs1] at h; simp at h
      | some avail1 =>
        rw [hs1] at h
        simp only [Option.some_bind] at h
        cases hlv : get2? p.semaphore_allocation tid id with
        | none => rw [hlv] at h; simp at h
        | some lv =>
          rw [hlv] at h
          simp only [Option.some_bind] at h
          cases hs2 : set2? p.semaphore_allocation tid id (usub lv 1) with
          | none => rw [hs2] at h; simp at h
          | some alloc1 =>
            rw [hs2] at h
            simp only [Option.some_bind] at h
            obtain ⟨_, hdef⟩ := setN?_decomp hs1
            subst hdef
            exact ⟨av, lv, alloc1, rfl, rfl, hs2, (Option.some.inj h).symm⟩

theorem mutex_lock_grant_decomp {p : PInner} {tid id : Nat} {res : Int × PInner}
    (h : mutex_lock_grant p tid id = some res) :
    ∃ av nv need1 lv alloc1,
      p.mutex_available[id]? = some av ∧
      get2? p.mutex_need tid id = some nv ∧
      set2? p.mutex_need tid id (usub nv 1) = some need1 ∧
      get2? p.mutex_allocation tid id = some lv ∧
      set2? p.mutex_allocation tid id (uadd lv 1) = some alloc1 ∧
      res = (0, { p with
        mutex_available := p.mutex_available.set id (usub av 1)
        mutex_need := need1
        mutex_allocation := alloc1 }) := by
  unfold mutex_lock_grant at h
  cases hav : p.mutex_available[id]? with
  | none => rw [hav] at h; simp at h
  | some av =>
    rw [hav] at h
    simp only [Option.some_bind] at h
    cases hs1 : setN? p.mutex_available id (usub av 1) with
    | none => rw [hs1] at h; simp at h
    | some avail1 =>
      rw [hs1] at h
      simp only [Option.some_bind] at h
      cases hnv : get2? p.mutex_need tid id with
      | none => rw [hnv] at h; simp at h
      | some nv =>
        rw [hnv] at h
        simp only [Option.some_bind] at h
        cases hs2 : set2? p.mutex_need tid id (usub nv 1) with
        | none => rw [hs2] at h; simp at h
        | some need1 =>
          rw [hs2] at h
          simp only [Option.some_bind] at h
          cases hlv : get2? p.mutex_allocation tid id with
          | none => rw [hlv] at h; simp at h
          | some lv =>
            rw [hlv] at h
            simp only [Option.some_bind] at h
            cases hs3 : set2? p.mutex_allocation tid id (uadd lv 1) with
            | none => rw [hs3] at h; simp at h
            | some alloc1 =>
              rw [hs3] at h
              simp only [Option.some_bind] at h
              obtain ⟨_, hdef⟩ := setN?_decomp hs1
              subst hdef
              exact ⟨av, nv, need1, lv, alloc1, rfl, rfl, hs2, rfl, hs3,
                (Option.some.inj h).symm⟩

theorem semaphore_down_grant_decomp {p : PInner} {tid id : Nat}
    {res : Int × PInner} (h : semaphore_down_grant p tid id = some res) :
    ∃ av nv need1 lv alloc1,
      p.semaphore_available[id]? = some av ∧
      get2? p.semaphore_need tid id = some nv ∧
      set2? p.semaphore_need tid id (usub nv 1) = some need1 ∧
      get2? p.semaphore_allocation tid id = some lv ∧
      set2? p.semaphore_allocation tid id (uadd lv 1) = some alloc1 ∧
      res = (0, { p with
        semaphore_available := p.semaphore_available.set id (usub av 1)
        semaphore_need := need1
        semaphore_allocation := alloc1 }) := by
  unfold semaphore_down_grant at h
  cases hav : p.semaphore_available[id]? with
  | none => rw [hav] at h; simp at h
  | some av =>
    rw [hav] at h
    simp only [Option.some_bind] at h
    cases hs1 : setN? p.semaphore_available id (usub av 1) with
    | none => rw [hs1] at h; simp at h
    | some avail1 =>
      rw [hs1] at h
      simp only [Option.some_bind] at h
      cases hnv : get2? p.semaphore_need tid id with
      | none => rw [hnv] at h; simp at h
      | some nv =>
        rw [hnv] at h
        simp only [Option.some_bind] at h
        cases hs2 : set2? p.semaphore_need tid id (usub nv 1) with
        | none => rw [hs2] at h; simp at h
        | some need1 =>
          rw [hs2] at h
          simp only [Option.some_bind] at h
          cases hlv : get2? p.semaphore_allocation tid id with
          | none => rw [hlv] at h; simp at h
          | some lv =>
            rw [hlv] at h
            simp only [Option.some_bind] at h
            cases hs3 : set2? p.semaphore_allocation tid id (uadd lv 1) with
            | none => rw [hs3] at h; simp at h
            | some alloc1 =>
              rw [hs3] at h
              simp only [Option.some_bind] at h
              obtain ⟨_, hdef⟩ := setN?_decomp hs1
              subst hdef
              exact ⟨av, nv, need1, lv, alloc1, rfl, rfl, hs2, rfl, hs3,
                (Option.some.inj h).symm⟩

theorem mutex_lock_request_proceed {p p1 : PInner} {tid id : Nat}
    (h : mutex_lock_request p tid id = some (LockPhase.proceed p1)) :
    p1.mutex_list = p.mutex_list ∧ p1.mutex_available = p.mutex_available ∧
    p1.mutex_allocation = p.mutex_allocation ∧
    (p1.mutex_need = [] → p.mutex_need = []) ∧
    p1.semaphore_list = p.semaphore_list ∧
    p1.semaphore_available = p.semaphore_available ∧
    p1.semaphore_allocation = p.semaphore_allocation ∧
    p1.semaphore_need = p.semaphore_need := by
  unfold mutex_lock_request at h
  by_cases hd : p.deadlock_detect
  · rw [if_pos hd] at h
    cases hold : get2? p.mutex_need tid id with
    | none => rw [hold] at h; simp at h
    | some old =>
      rw [hold] at h
      simp only [Option.some_bind] at h
      cases hset : set2? p.mutex_need tid id (uadd old 1) with
      | none => rw [hset] at h; simp at h
      | some need1 =>
        rw [hset] at h
        simp only [Option.some_bind] at h
        cases hloop : mutexLoopGo { p with mutex_need := need1 } tid
            (need1.length + 2) p.mutex_available
            (List.replicate p.tasks false) with
        | none => rw [hloop] at h; simp at h
        | some finish =>
          rw [hloop] at h
          simp only [Option.some_bind] at h
          by_cases hall : finish.all (fun b => b)
          · rw [if_pos hall] at h
            cases hsg : slotGet p.mutex_list id with
            | none => rw [hsg] at h; simp at h
            | some u =>
              rw [hsg] at h
              simp only [Option.some_bind, Option.some.injEq,
                LockPhase.proceed.injEq] at h
              subst h
              refine ⟨rfl, rfl, rfl, ?_, rfl, rfl, rfl, rfl⟩
              intro hc
              exact absurd hc (set2?_some_ne_nil hset)
          · rw [if_neg hall] at h; simp at h
  · rw [if_neg hd] at h
    cases hsg : slotGet p.mutex_list id with
    | none => rw [hsg] at h; simp at h
    | some u =>
      rw [hsg] at h
      simp only [Option.some_bind, Option.some.injEq,
        LockPhase.proceed.injEq] at h
      subst h
      exact ⟨rfl, rfl, rfl, fun hc => hc, rfl, rfl, rfl, rfl⟩

theorem semaphore_down_request_proceed {p p1 : PInner} {tid id : Nat}
    (h : semaphore_down_request p tid id = some (LockPhase.proceed p1)) :
    p1.semaphore_list = p.semaphore_list ∧
    p1.semaphore_available = p.semaphore_available ∧
    p1.semaphore_allocation = p.semaphore_allocation ∧
    (p1.semaphore_need = [] → p.semaphore_need = []) ∧
    p1.mutex_list = p.mutex_list ∧
    p1.mutex_available = p.mutex_available ∧
    p1.mutex_allocation = p.mutex_allocation ∧
    p1.mutex_need = p.mutex_need := by
  unfold semaphore_down_request at h
  cases hsg : slotGet p.semaphore_list id with
  | none => rw [hsg] at h; simp at h
  | some u =>
    rw [hsg] at h
    simp only [Option.some_bind] at h
    by_cases hd : p.deadlock_detect
    · rw [if_pos hd] at h
      cases hold : get2? p.semaphore_need tid id with
      | none => rw [hold] at h; simp at h
      | some old =>
        rw [hold] at h
        simp only [Option.some_bind] at h
        cases hset : set2? p.semaphore_need tid id (uadd old 1) with
        | none => rw [hset] at h; simp at h
        | some need1 =>
          rw [hset] at h
          simp only [Option.some_bind] at h
          cases hloop : semLoopGo { p with semaphore_need := need1 }
              (need1.length + 1) p.semaphore_available
              (List.replicate p.tasks false) with
          | none => rw [hloop] at h; simp at h
          | some finish =>
            rw [hloop] at h
            simp only [Option.some_bind] at h
            by_cases hall : finish.all (fun b => b)
            · rw [if_pos hall] at h
              simp only [Option.some.injEq, LockPhase.proceed.injEq] at h
              subst h
              refine ⟨rfl, rfl, rfl, ?_, rfl, rfl, rfl, rfl⟩
              intro hc
              exact absurd hc (set2?_some_ne_nil hset)
            · rw [if_neg hall] at h; simp at h
    · rw [if_neg hd] at h
      simp only [Option.some.injEq, LockPhase.proceed.injEq] at h
      subst h
      exact ⟨rfl, rfl, rfl, fun hc => hc, rfl, rfl, rfl, rfl⟩

theorem growRows_rows {alloc need : List (List Nat)} {w L : Nat}
    (hw : ∀ row ∈ alloc, row.length = L) (hwl : w = L) :
    ∀ row ∈ (growRows alloc need w).1, row.length = L := by
  unfold growRows
  by_cases hni : need.isEmpty
  · rw [if_pos hni]
    intro row hrow
    rcases List.mem_append.mp hrow with hm | hm
    · exact hw row hm
    · rw [List.mem_singleton.mp hm, List.length_replicate]
      exact hwl
  · rw [if_neg hni]
    exact hw

theorem growRows_colSum (alloc need : List (List Nat)) (w r : Nat) :
    colSumZ (growRows alloc need w).1 r = colSumZ alloc r := by
  unfold growRows
  by_cases hni : need.isEmpty
  · rw [if_pos hni]
    simp only [colSumZ_append_row, getD_replicate_zero]
    simp
  · rw [if_neg hni]

theorem growRows_snd_ne_nil (alloc need : List (List Nat)) (w : Nat) :
    (growRows alloc need w).2 ≠ [] := by
  unfold growRows
  by_cases hni : need.isEmpty
  · rw [if_pos hni]; simp
  · rw [if_neg hni]
    simpa [List.isEmpty_iff] using hni

theorem classWF_create {slots : List Bool} {avail : List Nat}
    {alloc need : List (List Nat)} {cap : List Nat} {c : Nat} {res : CreateRes}
    (hwf : classWF slots avail alloc need cap)
    (h : createClass slots avail alloc need c = some res) :
    classWF res.slots res.avail res.alloc res.need (capUpd cap res.id c) := by
  obtain ⟨h1, h2, h3, h4, h5⟩ := hwf
  unfold createClass at h
  cases hfe : firstEmpty slots with
  | some id =>
    rw [hfe] at h
    replace h : createReuse slots avail alloc need c id = some res := h
    have hidlt : id < slots.length := firstEmpty_lt hfe
    have hidav : id < avail.length := h1 ▸ hidlt
    have hidcap : id < cap.length := by omega
    unfold createReuse at h
    unfold setB? at h
    rw [if_pos hidlt] at h
    simp only [Option.some_bind] at h
    unfold setN? at h
    rw [if_pos hidav] at h
    simp only [Option.some_bind] at h
    cases hz1 : zeroCol (growRows alloc need slots.length).1 id with
    | none => rw [hz1] at h; simp at h
    | some alloc2 =>
      rw [hz1] at h
      simp only [Option.some_bind] at h
      cases hz2 : zeroCol (growRows alloc need slots.length).2 id with
      | none => rw [hz2] at h; simp at h
      | some need2 =>
        rw [hz2] at h
        simp only [Option.some_bind] at h
        obtain ⟨ha2, _⟩ := zeroCol_eq hz1
        obtain ⟨hn2, _⟩ := zeroCol_eq hz2
        have hres : res = ⟨id, slots.set id true, avail.set id c, alloc2, need2⟩ :=
          (Option.some.inj h).symm
        subst hres
        have hcap' : capUpd cap id c = cap.set id c := by
          unfold capUpd
          rw [if_pos hidcap]
        rw [hcap']
        refine ⟨by simp [h1], by simp [h2], ?_, ?_, ?_⟩
        · intro row hrow
          rw [List.length_set]
          subst ha2
          obtain ⟨row0, hrow0, hrow0eq⟩ := List.mem_map.mp hrow
          rw [← hrow0eq, List.length_set]
          exact growRows_rows h3 h1 row0 hrow0
        · intro hc2
          exfalso
          apply growRows_snd_ne_nil alloc need slots.length
          subst hn2
          exact List.map_eq_nil_iff.mp hc2
        · intro r hr
          rw [List.length_set] at hr
          subst ha2
          by_cases hcase : id = r
          · subst hcase
            rw [getD_set_self c hidav, getD_set_self c hidcap,
              colSumZ_map_zero_self]
            simp
          · rw [getD_set_ne c hcase, getD_set_ne c hcase,
              colSumZ_map_zero_ne hcase, growRows_colSum]
            exact h5 r hr
  | none =>
    rw [hfe] at h
    replace h : some (createAppend slots avail alloc need c) = some res := h
    have hres : res = createAppend slots avail alloc need c :=
      (Option.some.inj h).symm
    subst hres
    simp only [createAppend]
    have hcap' : capUpd cap slots.length c = cap ++ [c] := by
      unfold capUpd
      rw [if_neg (by omega)]
    rw [hcap']
    have hgrow : ∀ row ∈ (growRows alloc need slots.length).1,
        row.length = avail.length := growRows_rows h3 h1
    refine ⟨by simp [h1], by simp [h2], ?_, ?_, ?_⟩
    · intro row hrow
      obtain ⟨row0, hrow0, hrow0eq⟩ := List.mem_map.mp hrow
      rw [← hrow0eq]
      simp only [List.length_append, List.length_singleton]
      have := hgrow row0 hrow0
      simp [this]
    · intro hc2
      exfalso
      apply growRows_snd_ne_nil alloc need slots.length
      exact List.map_eq_nil_iff.mp hc2
    · intro r hr
      simp only [List.length_append, List.length_singleton] at hr
      by_cases hcase : r < cap.length
      · have hrav : r < avail.length := by omega
        rw [getD_append_left [c] hrav, getD_append_left [c] hcase,
          colSumZ_map_push, growRows_colSum]
        exact h5 r hcase
      · have hreq : r = cap.length := by omega
        subst hreq
        rw [show (avail ++ [c]).getD cap.length 0 = c by
            rw [h2, getD_append_self],
          getD_append_self]
        have hzero : colSumZ ((growRows alloc need slots.length).1.map
            (fun row => row ++ [0])) cap.length = 0 := by
          rw [h2]
          exact colSumZ_map_push_at_end _ hgrow
        rw [hzero]
        simp

theorem get2?_ne_nil {m : List (List Nat)} {i j v : Nat}
    (h : get2? m i j = some v) : m ≠ [] := by
  intro hc
  subst hc
  unfold get2? at h
  simp at h

theorem classWF_congr_need {slots : List Bool} {avail : List Nat}
    {alloc need need' : List (List Nat)} {cap : List Nat}
    (h : classWF slots avail alloc need cap) (hne : need' = [] → need = []) :
    classWF slots avail alloc need' cap :=
  ⟨h.1, h.2.1, h.2.2.1, fun hn => h.2.2.2.1 (hne hn), h.2.2.2.2⟩

theorem stepOp_preserves {g g2 : GState} {op : SyncOp}
    (hinv : gInv g) (h : stepOp g op = some g2) : gInv g2 := by
  obtain ⟨hm, hs⟩ := hinv
  cases op with
  | mCreate =>
    simp only [stepOp] at h
    cases hc : createClass g.p.mutex_list g.p.mutex_available
        g.p.mutex_allocation g.p.mutex_need 1 with
    | none => rw [hc] at h; simp at h
    | some cr =>
      rw [hc] at h
      simp only [Option.some_bind, Option.some.injEq] at h
      subst h
      exact ⟨classWF_create hm hc, hs⟩
  | sCreate c =>
    simp only [stepOp] at h
    cases hc : createClass g.p.semaphore_list g.p.semaphore_available
        g.p.semaphore_allocation g.p.semaphore_need c with
    | none => rw [hc] at h; simp at h
    | some cr =>
      rw [hc] at h
      simp only [Option.some_bind, Option.some.injEq] at h
      subst h
      exact ⟨hm, classWF_create hs hc⟩
  | mUnlock tid id =>
    simp only [stepOp] at h
    cases hu : sys_mutex_unlock g.p tid id with
    | none => rw [hu] at h; simp at h
    | some r =>
      rw [hu] at h
      simp only [Option.some_bind, Option.some.injEq] at h
      subst h
      obtain ⟨av, lv, alloc1, hav, hlv, hset, hres⟩ := sys_mutex_unlock_decomp hu
      rw [hres]
      obtain ⟨h1, h2, h3, h4, h5⟩ := hm
      refine ⟨?_, hs⟩
      refine classWF_exchange 1 (-1) h1 h2 h3 h5 hav hlv
        ?_ ?_ (by ring) hset ?_
      · rw [uadd_cast]; norm_num
      · rw [usub_one_cast]; ring
      · intro hn
        exact absurd (h4 hn) (get2?_ne_nil hlv)
  | sUp tid id =>
    simp only [stepOp] at h
    cases hu : sys_semaphore_up g.p tid id with
    | none => rw [hu] at h; simp at h
    | some r =>
      rw [hu] at h
      simp only [Option.some_bind, Option.some.injEq] at h
      subst h
      obtain ⟨av, lv, alloc1, hav, hlv, hset, hres⟩ := sys_semaphore_up_decomp hu
      rw [hres]
      obtain ⟨h1, h2, h3, h4, h5⟩ := hs
      refine ⟨hm, ?_⟩
      refine classWF_exchange 1 (-1) h1 h2 h3 h5 hav hlv
        ?_ ?_ (by ring) hset ?_
      · rw [uadd_cast]; norm_num
      · rw [usub_one_cast]; ring
      · intro hn
        exact absurd (h4 hn) (get2?_ne_nil hlv)
  | mLock tid id =>
    simp only [stepOp] at h
    cases hrq : mutex_lock_request g.p tid id with
    | none => rw [hrq] at h; simp at h
    | some ph =>
      rw [hrq] at h
      simp only [Option.some_bind] at h
      cases ph with
      | reject r0 p0 =>
        replace h : (none : Option GState) = some g2 := h
        cases h
      | proceed p1 =>
        replace h : (mutex_lock_grant p1 tid id).bind
            (fun r2 => some (⟨r2.2, g.capM, g.capS⟩ : GState)) = some g2 := h
        cases hg : mutex_lock_grant p1 tid id with
        | none => rw [hg] at h; simp at h
        | some r2 =>
          rw [hg] at h
          simp only [Option.some_bind, Option.some.injEq] at h
          subst h
          obtain ⟨hq1, hq2, hq3, hq4, hq5, hq6, hq7, hq8⟩ :=
            mutex_lock_request_proceed hrq
          obtain ⟨av, nv, need1, lv, alloc1, hav, hnv, hsetn, hlv, hseta, hres⟩ :=
            mutex_lock_grant_decomp hg
          rw [hres]
          have hm1 : classWF p1.mutex_list p1.mutex_available
              p1.mutex_allocation p1.mutex_need g.capM := by
            rw [hq1, hq2, hq3]
            exact classWF_congr_need hm hq4
          have hs1 : classWF p1.semaphore_list p1.semaphore_available
              p1.semaphore_allocation p1.semaphore_need g.capS := by
            rw [hq5, hq6, hq7, hq8]
            exact hs
          obtain ⟨h1, h2, h3, h4, h5⟩ := hm1
          refine ⟨?_, hs1⟩
          refine classWF_exchange (-1) 1 h1 h2 h3 h5 hav hlv
            ?_ ?_ (by ring) hseta ?_
          · rw [usub_one_cast]; ring
          · rw [uadd_cast]; norm_num
          · intro hn
            exact absurd hn (set2?_some_ne_nil hsetn)
  | sDown tid id =>
    simp only [stepOp] at h
    cases hrq : semaphore_down_request g.p tid id with
    | none => rw [hrq] at h; simp at h
    | some ph =>
      rw [hrq] at h
      simp only [Option.some_bind] at h
      cases ph with
      | reject r0 p0 =>
        replace h : (none : Option GState) = some g2 := h
        cases h
      | proceed p1 =>
        replace h : (semaphore_down_grant p1 tid id).bind
            (fun r2 => some (⟨r2.2, g.capM, g.capS⟩ : GState)) = some g2 := h
        cases hg : semaphore_down_grant p1 tid id with
        | none => rw [hg] at h; simp at h
        | some r2 =>
          rw [hg] at h
          simp only [Option.some_bind, Option.some.injEq] at h
          subst h
          obtain ⟨hq1, hq2, hq3, hq4, hq5, hq6, hq7, hq8⟩ :=
            semaphore_down_request_proceed hrq
          obtain ⟨av, nv, need1, lv, alloc1, hav, hnv, hsetn, hlv, hseta, hres⟩ :=
            semaphore_down_grant_decomp hg
          rw [hres]
          have hs1 : classWF p1.semaphore_list p1.semaphore_available
              p1.semaphore_allocation p1.semaphore_need g.capS := by
            rw [hq1, hq2, hq3]
            exact classWF_congr_need hs hq4
          have hm1 : classWF p1.mutex_list p1.mutex_available
              p1.mutex_allocation p1.mutex_need g.capM := by
            rw [hq5, hq6, hq7, hq8]
            exact hm
          obtain ⟨h1, h2, h3, h4, h5⟩ := hs1
          refine ⟨hm1, ?_⟩
          refine classWF_exchange (-1) 1 h1 h2 h3 h5 hav hlv
            ?_ ?_ (by ring) hseta ?_
          · rw [usub_one_cast]; ring
          · rw [uadd_cast]; norm_num
          · intro hn
            exact absurd hn (set2?_some_ne_nil hsetn)

theorem execOps_inv : ∀ (ops : List SyncOp) {g g2 : GState},
    gInv g → execOps g ops = some g2 → gInv g2
  | [], g, g2, hinv, h => by
    unfold execOps at h
    cases h
    exact hinv
  | op :: rest, g, g2, hinv, h => by
    unfold execOps at h
    cases hst : stepOp g op with
    | none => rw [hst] at h; simp at h
    | some gm =>
      rw [hst] at h
      simp only [Option.some_bind] at h
      exact execOps_inv rest (stepOp_preserves hinv hst) h

theorem initG_inv (k : Nat) : gInv (initG k) := by
  refine ⟨⟨rfl, rfl, ?_, fun _ => rfl, ?_⟩, ⟨rfl, rfl, ?_, fun _ => rfl, ?_⟩⟩
  · intro row hrow; exact absurd hrow (List.not_mem_nil row)
  · intro r hr; exact absurd hr (Nat.not_lt_zero r)
  · intro row hrow; exact absurd hrow (List.not_mem_nil row)
  · intro r hr; exact absurd hr (Nat.not_lt_zero r)

theorem findZW_eq_none {pid : Int} {l : List Child}
    (h : ∀ c ∈ l, (c.zombie && childMatches pid c) = false) :
    ∀ s, findZW pid l s = none := by
  induction l with
  | nil => intro s; rfl
  | cons c rest ih =>
    intro s
    unfold findZW
    rw [h c (List.mem_cons_self c rest)]
    simp only [Bool.false_eq_true, if_false]
    exact ih (fun d hd => h d (List.mem_cons_of_mem c hd)) (s + 1)

theorem findZW_some {pid : Int} : ∀ {l : List Child} {s idx : Nat} {c : Child},
    findZW pid l s = some (idx, c) →
    c ∈ l ∧ (c.zombie && childMatches pid c) = true := by
  intro l
  induction l with
  | nil => intro s idx c h; cases h
  | cons d rest ih =>
    intro s idx c h
    unfold findZW at h
    by_cases hc : (d.zombie && childMatches pid d) = true
    · rw [if_pos hc] at h
      have hdc : d = c := congrArg Prod.snd (Option.some.inj h)
      subst hdc
      exact ⟨List.mem_cons_self d rest, hc⟩
    · rw [if_neg hc] at h
      obtain ⟨hm, hz⟩ := ih h
      exact ⟨List.mem_cons_of_mem d hm, hz⟩

theorem sys_waitpid_no_match {children : List Child} {pid : Int}
    (h : ∀ d ∈ children, childMatches pid d = false) :
    sys_waitpid children pid = some (-1, children, none) := by
  unfold sys_waitpid
  have hany : children.any (fun c => childMatches pid c) = false :=
    List.any_eq_false.mpr (fun d hd => by simp [h d hd])
  rw [hany]
  simp

-- ===================================================================
-- Claim theorems
-- ===================================================================

/-- C2 (amended): when the deadlock detector rejects a blocking acquisition
(`sys_mutex_lock` or `sys_semaphore_down`), the syscall returns the sentinel
`-0xDEAD` before blocking and leaves Allocation and Available untouched, but
the tentative `Need[tid][id]` increment is NOT rolled back: the Need entry
keeps the incremented value, so Need differs from its value at syscall
entry. -/
theorem c2_reject_keeps_need_increment (p : PInner) (tid id : Nat) (r : Int)
    (p' : PInner) :
    (mutex_lock_request p tid id = some (LockPhase.reject r p') →
      r = -0xDEAD ∧
      p'.mutex_available = p.mutex_available ∧
      p'.mutex_allocation = p.mutex_allocation ∧
      ∃ old, get2? p.mutex_need tid id = some old ∧
        get2? p'.mutex_need tid id = some (uadd old 1) ∧
        p'.mutex_need ≠ p.mutex_need) ∧
    (semaphore_down_request p tid id = some (LockPhase.reject r p') →
      r = -0xDEAD ∧
      p'.semaphore_available = p.semaphore_available ∧
      p'.semaphore_allocation = p.semaphore_allocation ∧
      ∃ old, get2? p.semaphore_need tid id = some old ∧
        get2? p'.semaphore_need tid id = some (uadd old 1) ∧
        p'.semaphore_need ≠ p.semaphore_need) := by
  constructor
  · intro h
    unfold mutex_lock_request at h
    by_cases hd : p.deadlock_detect
    · rw [if_pos hd] at h
      cases hold : get2? p.mutex_need tid id with
      | none => rw [hold] at h; simp at h
      | some old =>
        rw [hold] at h
        simp only [Option.some_bind] at h
        cases hset : set2? p.mutex_need tid id (uadd old 1) with
        | none => rw [hset] at h; simp at h
        | some need1 =>
          rw [hset] at h
          simp only [Option.some_bind] at h
          cases hloop : mutexLoopGo { p with mutex_need := need1 } tid
              (need1.length + 2) p.mutex_available (List.replicate p.tasks false) with
          | none => rw [hloop] at h; simp at h
          | some finish =>
            rw [hloop] at h
            simp only [Option.some_bind] at h
            by_cases hall : finish.all (fun b => b)
            · rw [if_pos hall] at h
              cases hs : slotGet p.mutex_list id with
              | none => rw [hs] at h; simp at h
              | some u => rw [hs] at h; simp at h
            · rw [if_neg hall] at h
              simp only [Option.some.injEq, LockPhase.reject.injEq] at h
              obtain ⟨hr1, hr2⟩ := h
              subst hr1; subst hr2
              refine ⟨rfl, rfl, rfl, ?_⟩
              refine ⟨old, rfl, get2?_of_set2? hset, ?_⟩
              intro he
              have h1 : get2? need1 tid id = some (uadd old 1) :=
                get2?_of_set2? hset
              rw [show ({ p with mutex_need := need1 } : PInner).mutex_need
                  = need1 from rfl] at he
              rw [he, hold] at h1
              exact uadd_one_ne old (Option.some.inj h1).symm
    · rw [if_neg hd] at h
      cases hs : slotGet p.mutex_list id with
      | none => rw [hs] at h; simp at h
      | some u => rw [hs] at h; simp at h
  · intro h
    unfold semaphore_down_request at h
    cases hs : slotGet p.semaphore_list id with
    | none => rw [hs] at h; simp at h
    | some u =>
      rw [hs] at h
      simp only [Option.some_bind] at h
      by_cases hd : p.deadlock_detect
      · rw [if_pos hd] at h
        cases hold : get2? p.semaphore_need tid id with
        | none => rw [hold] at h; simp at h
        | some old =>
          rw [hold] at h
          simp only [Option.some_bind] at h
          cases hset : set2? p.semaphore_need tid id (uadd old 1) with
          | none => rw [hset] at h; simp at h
          | some need1 =>
            rw [hset] at h
            simp only [Option.some_bind] at h
            cases hloop : semLoopGo { p with semaphore_need := need1 }
                (need1.length + 1) p.semaphore_available
                (List.replicate p.tasks false) with
            | none => rw [hloop] at h; simp at h
            | some finish =>
              rw [hloop] at h
              simp only [Option.some_bind] at h
              by_cases hall : finish.all (fun b => b)
              · rw [if_pos hall] at h; simp at h
              · rw [if_neg hall] at h
                simp only [Option.some.injEq, LockPhase.reject.injEq] at h
                obtain ⟨hr1, hr2⟩ := h
                subst hr1; subst hr2
                refine ⟨rfl, rfl, rfl, ?_⟩
                refine ⟨old, rfl, get2?_of_set2? hset, ?_⟩
                intro he
                have h1 : get2? need1 tid id = some (uadd old 1) :=
                  get2?_of_set2? hset
                rw [show ({ p with semaphore_need := need1 } : PInner).semaphore_need
                    = need1 from rfl] at he
                rw [he, hold] at h1
                exact uadd_one_ne old (Option.some.inj h1).symm
      · rw [if_neg hd] at h; simp at h

/-- C2 witness: the amended theorem applied at `c2state` (a single-threaded
process re-requesting the mutex it already holds, which the detector
rejects). -/
theorem c2_reject_keeps_need_increment_witness :
    (-0xDEAD : Int) = -0xDEAD ∧
    c2state'.mutex_available = c2state.mutex_available ∧
    c2state'.mutex_allocation = c2state.mutex_allocation ∧
    ∃ old, get2? c2state.mutex_need 0 0 = some old ∧
      get2? c2state'.mutex_need 0 0 = some (uadd old 1) ∧
      c2state'.mutex_need ≠ c2state.mutex_need :=
  (c2_reject_keeps_need_increment c2state 0 0 (-0xDEAD) c2state').1 (by decide)

/-- C2 counterexample: as stated, the claim is false.  On `c2state` the
rejected `sys_mutex_lock` returns `-0xDEAD` but the process's `mutex_need`
does not equal its value at syscall entry — the tentative increment
persists. -/
theorem c2_counterexample :
    mutex_lock_request c2state 0 0 = some (LockPhase.reject (-0xDEAD) c2state') ∧
    c2state'.mutex_need ≠ c2state.mutex_need := by
  constructor
  · decide
  · decide

/-- C1: the safety check actually run by `sys_mutex_lock` is not the
Banker's safety check.  On `c1state`, thread 0's request for mutex 0 is
allowed to proceed to block by the code (every `finish` entry ends true),
although the Banker's check of the claim — run on the same post-increment
Need, the same Allocation, and Work initialized from Available — leaves
threads 1 and 2 unmarked, so the claim requires the request to be
rejected. -/
theorem c1_mutex_check_differs_from_bankers :
    mutex_lock_request c1state 0 0 = some (LockPhase.proceed c1state') ∧
    bankersSafe c1state'.mutex_need c1state'.mutex_allocation
      c1state.mutex_available 3 = false := by
  constructor
  · decide
  · decide

/-- C3 (amended): a synchronization syscall invoked with an unknown resource
id — an index at or past the end of the slot list, or an index whose slot
holds the empty marker — is fatal: with deadlock detection disabled, each of
`sys_mutex_lock`, `sys_mutex_unlock`, `sys_semaphore_down`,
`sys_semaphore_up`, `sys_condvar_signal` and `sys_condvar_wait` panics
(result `none`, from out-of-bounds indexing or `unwrap` on the empty
marker).  No negative sentinel is returned. -/
theorem c3_unknown_id_is_fatal (p : PInner) (tid id mid : Nat)
    (hd : p.deadlock_detect = false) :
    (p.mutex_list[id]? ≠ some true →
      mutex_lock_request p tid id = none ∧ sys_mutex_unlock p tid id = none) ∧
    (p.semaphore_list[id]? ≠ some true →
      semaphore_down_request p tid id = none ∧ sys_semaphore_up p tid id = none) ∧
    (p.condvar_list[id]? ≠ some true →
      sys_condvar_signal p id = none ∧ sys_condvar_wait p id mid = none) := by
  refine ⟨fun hm => ⟨?_, ?_⟩, fun hs => ⟨?_, ?_⟩, fun hc => ⟨?_, ?_⟩⟩
  · unfold mutex_lock_request
    rw [hd]
    simp only [Bool.false_eq_true, if_false]
    rw [slotGet_eq_none hm]
    rfl
  · unfold sys_mutex_unlock
    apply bind_none_of; intro av
    apply bind_none_of; intro avail1
    apply bind_none_of; intro lv
    apply bind_none_of; intro alloc1
    rw [slotGet_eq_none hm]
    rfl
  · unfold semaphore_down_request
    rw [slotGet_eq_none hs]
    rfl
  · unfold sys_semaphore_up
    rw [slotGet_eq_none hs]
    rfl
  · unfold sys_condvar_signal
    rw [slotGet_eq_none hc]
    rfl
  · unfold sys_condvar_wait
    rw [slotGet_eq_none hc]
    rfl

/-- C3 witness: the amended theorem applied to `c3state` (empty slot lists),
id 0: all six syscalls panic. -/
theorem c3_unknown_id_is_fatal_witness :
    (mutex_lock_request c3state 0 0 = none ∧
      sys_mutex_unlock c3state 0 0 = none) ∧
    (semaphore_down_request c3state 0 0 = none ∧
      sys_semaphore_up c3state 0 0 = none) ∧
    (sys_condvar_signal c3state 0 = none ∧
      sys_condvar_wait c3state 0 0 = none) := by
  have h := c3_unknown_id_is_fatal c3state 0 0 0 rfl
  exact ⟨h.1 (by decide), h.2.1 (by decide), h.2.2 (by decide)⟩

/-- C3 counterexample: as stated, the claim is false.  On `c3state2` every
slot list holds one freed slot (the empty marker), and each of the six
syscalls invoked with resource id 0 panics (`none`) instead of reporting the
error as a negative sentinel return value. -/
theorem c3_counterexample :
    mutex_lock_request c3state2 0 0 = none ∧
    sys_mutex_unlock c3state2 0 0 = none ∧
    semaphore_down_request c3state2 0 0 = none ∧
    sys_semaphore_up c3state2 0 0 = none ∧
    sys_condvar_signal c3state2 0 = none ∧
    sys_condvar_wait c3state2 0 0 = none := by
  refine ⟨?_, ?_, ?_, ?_, ?_, ?_⟩ <;> decide

/-- C7: for a valid resource id, `sys_mutex_unlock` and `sys_semaphore_up`
always succeed, returning 0, and unconditionally increment `Available[id]`
by 1 and decrement the releasing thread's `Allocation[tid][id]` by 1 in the
wrapping `usize` arithmetic of the source, with no precondition on the prior
bookkeeping values (in particular, the Allocation entry may already be
zero, in which case the wrapping decrement takes it to `2^64 - 1`). -/
theorem c7_release_always_succeeds (p : PInner) (tid id av lv bv kv : Nat)
    (hm : p.mutex_list[id]? = some true)
    (hav : p.mutex_available[id]? = some av)
    (hlv : get2? p.mutex_allocation tid id = some lv)
    (hs : p.semaphore_list[id]? = some true)
    (hbv : p.semaphore_available[id]? = some bv)
    (hkv : get2? p.semaphore_allocation tid id = some kv) :
    (∃ p', sys_mutex_unlock p tid id = some (0, p') ∧
      p'.mutex_available[id]? = some (uadd av 1) ∧
      get2? p'.mutex_allocation tid id = some (usub lv 1)) ∧
    (∃ q', sys_semaphore_up p tid id = some (0, q') ∧
      q'.semaphore_available[id]? = some (uadd bv 1) ∧
      get2? q'.semaphore_allocation tid id = some (usub kv 1)) := by
  have hidm : id < p.mutex_available.length := (List.getElem?_eq_some.mp hav).1
  have hids : id < p.semaphore_available.length := (List.getElem?_eq_some.mp hbv).1
  obtain ⟨alloc1, hset1⟩ := set2?_some_of_get2? hlv (usub lv 1)
  obtain ⟨alloc2, hset2⟩ := set2?_some_of_get2? hkv (usub kv 1)
  constructor
  · refine ⟨{ p with
        mutex_available := p.mutex_available.set id (uadd av 1)
        mutex_allocation := alloc1 }, ?_, ?_, ?_⟩
    · unfold sys_mutex_unlock
      rw [hav]
      simp only [Option.some_bind]
      unfold setN?
      rw [if_pos hidm]
      simp only [Option.some_bind]
      rw [hlv]
      simp only [Option.some_bind]
      rw [hset1]
      simp only [Option.some_bind]
      rw [slotGet_eq_some hm]
      rfl
    · exact List.getElem?_set_self hidm
    · exact get2?_of_set2? hset1
  · refine ⟨{ p with
        semaphore_available := p.semaphore_available.set id (uadd bv 1)
        semaphore_allocation := alloc2 }, ?_, ?_, ?_⟩
    · unfold sys_semaphore_up
      rw [slotGet_eq_some hs]
      simp only [Option.some_bind]
      rw [hbv]
      simp only [Option.some_bind]
      unfold setN?
      rw [if_pos hids]
      simp only [Option.some_bind]
      rw [hkv]
      simp only [Option.some_bind]
      rw [hset2]
      simp only [Option.some_bind]
    · exact List.getElem?_set_self hids
    · exact get2?_of_set2? hset2

/-- C7 witness: the theorem applied at `c7state`, where both Allocation
entries are already zero: both releases still succeed with return value 0,
Available goes from 1 to 2 (mutex) and 2 to 3 (semaphore), and the zero
Allocation entries wrap to `2^64 - 1`. -/
theorem c7_release_always_succeeds_witness :
    (∃ p', sys_mutex_unlock c7state 0 0 = some (0, p') ∧
      p'.mutex_available[0]? = some (uadd 1 1) ∧
      get2? p'.mutex_allocation 0 0 = some (usub 0 1)) ∧
    (∃ q', sys_semaphore_up c7state 0 0 = some (0, q') ∧
      q'.semaphore_available[0]? = some (uadd 2 1) ∧
      get2? q'.semaphore_allocation 0 0 = some (usub 0 1)) :=
  c7_release_always_succeeds c7state 0 0 1 0 2 0
    (by decide) (by decide) (by decide) (by decide) (by decide) (by decide)

/-- C4 (amended): `sys_waitpid(pid, out)` returns −1 when no child matches
`pid` by id (the wildcard −1 matches any child, matching ignores state);
returns −2 when a matching child exists but no matching child is a Zombie;
otherwise removes the first matching Zombie child from the children list,
checks that it has exactly one remaining owner (a failed check is a kernel
panic), writes its exit code through the translated output pointer and
returns its pid.  A second call with the same pid then returns −1 provided
`pid ≠ -1` and no remaining child has that pid (child pids are unique); for
the wildcard −1 the second call returns −1 only when no children remain. -/
theorem c4_waitpid_contract (children : List Child) (pid : Int) (idx : Nat)
    (c : Child) :
    ((∀ d ∈ children, childMatches pid d = false) →
      sys_waitpid children pid = some (-1, children, none)) ∧
    ((∃ d ∈ children, childMatches pid d = true) →
      (∀ d ∈ children, childMatches pid d = true → d.zombie = false) →
      sys_waitpid children pid = some (-2, children, none)) ∧
    (findZW pid children 0 = some (idx, c) → c.strong_count = 1 →
      sys_waitpid children pid
        = some ((c.pid : Int), children.eraseIdx idx, some c.exit_code)) ∧
    (findZW pid children 0 = some (idx, c) → c.strong_count ≠ 1 →
      sys_waitpid children pid = none) ∧
    (pid ≠ -1 →
      (∀ d ∈ children.eraseIdx idx, d.pid ≠ usizeOfInt pid) →
      sys_waitpid (children.eraseIdx idx) pid
        = some (-1, children.eraseIdx idx, none)) := by
  refine ⟨fun h => sys_waitpid_no_match h, ?_, ?_, ?_, ?_⟩
  · intro hex hnz
    obtain ⟨d, hd, hmatch⟩ := hex
    have hany : children.any (fun x => childMatches pid x) = true :=
      List.any_eq_true.mpr ⟨d, hd, hmatch⟩
    have hnone : findZW pid children 0 = none := by
      apply findZW_eq_none
      intro e he
      by_cases hme : childMatches pid e = true
      · rw [hnz e he hme]
        rfl
      · rw [Bool.not_eq_true] at hme
        rw [hme]
        exact Bool.and_false _
    unfold sys_waitpid
    rw [hany, hnone]
    simp
  · intro hfind hsc
    obtain ⟨hm, hz⟩ := findZW_some hfind
    have hany : children.any (fun x => childMatches pid x) = true :=
      List.any_eq_true.mpr ⟨c, hm, ((Bool.and_eq_true _ _).mp hz).2⟩
    unfold sys_waitpid
    rw [hany, hfind]
    simp [hsc]
  · intro hfind hsc
    obtain ⟨hm, hz⟩ := findZW_some hfind
    have hany : children.any (fun x => childMatches pid x) = true :=
      List.any_eq_true.mpr ⟨c, hm, ((Bool.and_eq_true _ _).mp hz).2⟩
    unfold sys_waitpid
    rw [hany, hfind]
    simp [hsc]
  · intro hpid hno
    apply sys_waitpid_no_match
    intro d hd
    unfold childMatches
    have h1 : (pid == -1) = false := by simp [hpid]
    have h2 : (usizeOfInt pid == d.pid) = false := by
      simp [Ne.symm (hno d hd)]
    rw [h1, h2]
    rfl

/-- C4 witness: the amended theorem applied to a parent with one zombie
child of pid 5 and exit code 7: the first call reaps it and a second call
with pid 5 returns −1. -/
theorem c4_waitpid_contract_witness :
    sys_waitpid [⟨5, true, 7, 1⟩] 5 = some (5, [], some 7) ∧
    sys_waitpid [] 5 = some (-1, [], none) := by
  have h := c4_waitpid_contract [⟨5, true, 7, 1⟩] 5 0 ⟨5, true, 7, 1⟩
  exact ⟨h.2.2.1 (by decide) (by decide), h.2.2.2.2 (by decide) (by decide)⟩

/-- C4 counterexample: as stated, the "second call with the same pid
returns −1" clause is false for the wildcard.  With two zombie children,
`sys_waitpid(-1, _)` reaps pid 3, and a second call with the same pid (−1)
returns 4, not −1. -/
theorem c4_counterexample :
    sys_waitpid [⟨3, true, 7, 1⟩, ⟨4, true, 9, 1⟩] (-1)
      = some (3, [⟨4, true, 9, 1⟩], some 7) ∧
    sys_waitpid [⟨4, true, 9, 1⟩] (-1) = some (4, [], some 9) ∧
    (4 : Int) ≠ -1 := by
  refine ⟨?_, ?_, ?_⟩ <;> decide

/-- C6: `sys_mmap` returns −1 whenever `start` is not page-aligned,
whenever the permission word has a bit set outside the low 3 bits
(`port & !0x7 != 0`), and whenever the low 3 permission bits are all zero
(`port & 0x7 == 0`), in every memory state and for every length. -/
theorem c6_mmap_rejects_invalid_args (ms : MemState) (s len port : Nat) :
    (s % PAGE_SIZE ≠ 0 → sys_mmap ms s len port = (-1, ms)) ∧
    (Nat.land port (W - 8) ≠ 0 → sys_mmap ms s len port = (-1, ms)) ∧
    (Nat.land port 7 = 0 → sys_mmap ms s len port = (-1, ms)) := by
  refine ⟨?_, ?_, ?_⟩
  · intro h
    have ha : alignedVA s = false := by simp [alignedVA, h]
    simp [sys_mmap, ha]
  · intro h
    by_cases hal : alignedVA s
    · simp [sys_mmap, hal, h]
    · rw [Bool.not_eq_true] at hal
      simp [sys_mmap, hal]
  · intro h
    by_cases hal : alignedVA s
    · simp [sys_mmap, hal, h]
    · rw [Bool.not_eq_true] at hal
      simp [sys_mmap, hal]

/-- C6 witness: the theorem applied at an unaligned start, at a permission
word with bit 3 set, and at permission 0. -/
theorem c6_mmap_rejects_invalid_args_witness :
    sys_mmap [] 1 4096 7 = (-1, []) ∧
    sys_mmap [] 4096 4096 9 = (-1, []) ∧
    sys_mmap [] 4096 4096 0 = (-1, []) :=
  ⟨(c6_mmap_rejects_invalid_args [] 1 4096 7).1 (by decide),
   (c6_mmap_rejects_invalid_args [] 4096 4096 9).2.1 (by decide),
   (c6_mmap_rejects_invalid_args [] 4096 4096 0).2.2 (by decide)⟩

/-- C5 (amended): a zero-length `sys_mmap`/`sys_munmap` is a no-op success
returning 0 only when `start` is page-aligned (and, for `sys_mmap`, the
permission bits are valid); the in-source alignment and permission checks
run before the length is examined, so an unaligned zero-length request is
still reported as an alignment error (−1). -/
theorem c5_zero_length_requests (ms : MemState) (s port : Nat)
    (hal : s % PAGE_SIZE = 0) :
    sys_munmap ms s 0 = (0, ms) ∧
    (Nat.land port (W - 8) = 0 → Nat.land port 7 ≠ 0 →
      sys_mmap ms s 0 port = (0, ms)) := by
  have ha : alignedVA s = true := by simp [alignedVA, hal]
  have hle : uadd s 0 ≤ s := by
    unfold uadd
    simpa using Nat.mod_le s W
  constructor
  · simp only [sys_munmap, ha, Bool.not_true, Bool.false_eq_true, if_false]
    unfold munmap_current
    rw [if_pos hle]
  · intro h1 h2
    simp only [sys_mmap, ha, Bool.not_true, Bool.false_eq_true, if_false]
    have hb1 : (Nat.land port (W - 8) != 0) = false := by simp [h1]
    have hb2 : (Nat.land port 7 == 0) = false := by simp [h2]
    rw [hb1, hb2]
    simp only [Bool.or_self, Bool.false_eq_true, if_false]
    unfold mmap_current
    rw [if_pos hle]

/-- C5 witness: the amended theorem applied at the aligned start 4096 with
permission 1. -/
theorem c5_zero_length_requests_witness :
    sys_munmap [] 4096 0 = (0, []) ∧
    sys_mmap [] 4096 0 1 = (0, []) :=
  ⟨(c5_zero_length_requests [] 4096 1 (by decide)).1,
   (c5_zero_length_requests [] 4096 1 (by decide)).2 (by decide) (by decide)⟩

/-- C5 counterexample: as stated, the claim is false: `sys_munmap(1, 0)` is
a zero-length request, yet it is treated as an alignment error and returns
−1, not 0. -/
theorem c5_counterexample :
    sys_munmap [] 1 0 = (-1, []) ∧ ((-1 : Int), ([] : MemState)) ≠ (0, []) := by
  constructor
  · decide
  · decide

/-- C9: `sys_fork` creates a child process with the fresh pid, sets slot 10
of the child's trap-context register file (the syscall-return slot) to 0,
hands exactly that child to the scheduler via `add_task`, and returns the
child's pid to the calling parent — so fork returns the child pid in the
parent and 0 in the child. -/
theorem c9_fork_child_contract (parent : PCB) (freshPid : Nat)
    (sched : List PCB) :
    (sys_fork parent freshPid sched).1 = (freshPid : Int) ∧
    (sys_fork parent freshPid sched).2.1.trap_cx.x 10 = 0 ∧
    (sys_fork parent freshPid sched).2.1.pid = freshPid ∧
    (sys_fork parent freshPid sched).2.2
      = sched ++ [(sys_fork parent freshPid sched).2.1] := by
  refine ⟨rfl, ?_, rfl, rfl⟩
  simp [sys_fork, forkChild]

/-- C10: `sys_set_priority(prio)` returns −1 and leaves the priority field
unchanged when `prio < 2`, and otherwise stores `prio` (as `usize`) in the
priority field and returns `prio` itself. -/
theorem c10_set_priority_contract (p : PCB) (prio : Int) :
    (prio < 2 → sys_set_priority p prio = (-1, p)) ∧
    (2 ≤ prio →
      sys_set_priority p prio = (prio, { p with priority := prio.toNat })) := by
  constructor
  · intro h
    unfold sys_set_priority
    rw [if_neg (by omega)]
  · intro h
    unfold sys_set_priority
    rw [if_pos h]

/-- C10 witness: the theorem applied at priorities 1 (rejected) and 5
(stored and returned). -/
theorem c10_set_priority_contract_witness :
    sys_set_priority pcb0 1 = (-1, pcb0) ∧
    sys_set_priority pcb0 5 = (5, { pcb0 with priority := (5 : Int).toNat }) :=
  ⟨(c10_set_priority_contract pcb0 1).1 (by norm_num),
   (c10_set_priority_contract pcb0 5).2 (by norm_num)⟩

/-- C8 (amended): for every sequence of resource-class operations (mutex or
semaphore create, accepted lock/down, unlock/up) executed from a fresh
process with deadlock detection enabled, and every resource column `r` of
each class, `Available[r] + Σ_t Allocation[t][r]` equals the capacity of `r`
(1 for a mutex, the initial count for a semaphore) *modulo `2^64`* at all
times.  The exact (non-modular) equality of the claim does not hold, because
a release never validates that the thread holds a unit and wraps the
Allocation entry below zero (see the counterexample). -/
theorem c8_capacity_invariant_mod (ops : List SyncOp) (k : Nat) (g : GState)
    (h : execOps (initG k) ops = some g) :
    (∀ r, r < g.capM.length →
      ((g.p.mutex_available.getD r 0 : Nat) : ZMod W)
        + colSumZ g.p.mutex_allocation r
        = ((g.capM.getD r 0 : Nat) : ZMod W)) ∧
    (∀ r, r < g.capS.length →
      ((g.p.semaphore_available.getD r 0 : Nat) : ZMod W)
        + colSumZ g.p.semaphore_allocation r
        = ((g.capS.getD r 0 : Nat) : ZMod W)) := by
  have hinv := execOps_inv ops (initG_inv k) h
  exact ⟨hinv.1.2.2.2.2, hinv.2.2.2.2.2⟩

/-- C8 witness: the amended theorem applied to the accepted sequence
`[mCreate, mLock 0 0, mUnlock 0 0]` from a one-thread process. -/
theorem c8_capacity_invariant_mod_witness :
    execOps (initG 1) [SyncOp.mCreate, SyncOp.mLock 0 0, SyncOp.mUnlock 0 0]
      = some c8wstate ∧
    ((c8wstate.p.mutex_available.getD 0 0 : Nat) : ZMod W)
      + colSumZ c8wstate.p.mutex_allocation 0
      = ((c8wstate.capM.getD 0 0 : Nat) : ZMod W) := by
  have hexec : execOps (initG 1)
      [SyncOp.mCreate, SyncOp.mLock 0 0, SyncOp.mUnlock 0 0]
      = some c8wstate := by decide
  exact ⟨hexec,
    (c8_capacity_invariant_mod _ 1 c8wstate hexec).1 0 (by decide)⟩

/-- C8 counterexample: as stated (with exact equality), the claim is false.
The accepted sequence `[mCreate, mUnlock 0 0]` (create a mutex, then release
it without holding it — `sys_mutex_unlock` always succeeds) leaves
`Available[0] = 2` and `Allocation[0][0] = 2^64 - 1`, whose exact sum is not
the capacity 1. -/
theorem c8_counterexample :
    execOps (initG 1) [SyncOp.mCreate, SyncOp.mUnlock 0 0] = some c8cxstate ∧
    c8cxstate.p.mutex_available.getD 0 0
        + colSumN c8cxstate.p.mutex_allocation 0
      ≠ c8cxstate.capM.getD 0 0 := by
  constructor
  · decide
  · decide

end RCore
